import Mathlib

/-!
# Shade game engine: the ECS world facade, the game set-up and the timelines

A shallow embedding of `src/lib/ECS/coordinator.hpp` (class `Coordinator`) and
`src/lib/ECS/system.hpp`, of the set-up part of `src/main.cpp` with the component reads of
`src/lib/systems/keyboard_movement.cpp`, and of `src/lib/core/timeline.cpp`.  The three
managers the coordinator composes
(`entity_manager.hpp`, `component_manager.hpp`, `system_manager.hpp`), the random key
helper and `types.hpp` are not among the sources; the managers are modelled from the
specification (sections 4.1 to 4.3) and the two capacity constants are parameters.

Every call returns an `Outcome`: the value or the error it reports, paired with the state
the call leaves behind.  A failure inside a manager aborts the facade operation at that
point, as the facade has no handler of its own.
-/

namespace Shade

/-! ## Basic types (`types.hpp`) -/

/-- An entity is an opaque small unsigned integer handle. -/
abbrev Entity := Nat

/-- The tag of a component type. -/
abbrev ComponentType := Nat

/-- A signature is a bit vector, bit `i` standing for the component type with tag `i`;
it is kept as the natural number with those bits.  Only bits below `MAX_COMPONENTS` are
ever addressed, since tags are bounded by it. -/
abbrev Signature := Nat

/-- The name that identifies a C++ type `T` (component or system type) in a template call. -/
abbrev TypeName := String

/-- The failures an operation can report. -/
inductive Error where
  | capacityExceeded
  | notLive
  | notFound
  | duplicate
  | notRegistered
  | typeError
  deriving DecidableEq, Repr

instance {α : Type} [DecidableEq α] : DecidableEq (Except Error α)
  | .ok a, .ok b =>
    if h : a = b then isTrue (by rw [h]) else isFalse (by intro h2; cases h2; exact h rfl)
  | .error a, .error b =>
    if h : a = b then isTrue (by rw [h]) else isFalse (by intro h2; cases h2; exact h rfl)
  | .ok _, .error _ => isFalse (by intro h; cases h)
  | .error _, .ok _ => isFalse (by intro h; cases h)

/-- The value or error of a call together with the state after the call. -/
abbrev Outcome (σ α : Type) := Except Error α × σ

namespace Signature

/-- Reads bit `pos`: `bitset::test(pos)`. -/
def test (s : Signature) (pos : Nat) : Bool := Nat.testBit s pos

/-- Writes bit `pos`: `bitset::set(pos, value)`. -/
def set (s : Signature) (pos : Nat) (value : Bool) : Signature :=
  if value then s ||| (1 <<< pos) else s ^^^ (s &&& (1 <<< pos))

/-- The superset test `(s & required) == required`. -/
def covers (s required : Signature) : Bool := (s &&& required) == required

end Signature

/-! ## Unordered maps with string keys

`std::unordered_map<std::string, X>` is kept as the list of its entries in iteration
order; a well-formed map has pairwise distinct keys (`keysDistinct`). -/

namespace Dict

variable {X : Type}

/-- Read access to the value stored under `key`, if there is one. -/
def find : List (String × X) → String → Option X
  | [], _ => none
  | p :: m, key => if p.1 == key then some p.2 else find m key

/-- Membership test `m.contains(key)`. -/
def contains (m : List (String × X)) (key : String) : Bool :=
  (find m key).isSome

/-- The assignment `m[key] = value`: overwrites the entry of `key` or adds one. -/
def assign : List (String × X) → String → X → List (String × X)
  | [], key, value => [(key, value)]
  | p :: m, key, value =>
    if p.1 == key then (p.1, value) :: m else p :: assign m key value

/-- The call `m.erase(key)`. -/
def erase (m : List (String × X)) (key : String) : List (String × X) :=
  m.filter (fun p => p.1 != key)

/-- Well-formedness of the representation: no key occurs twice. -/
def keysDistinct (m : List (String × X)) : Prop := (m.map Prod.fst).Nodup

instance (m : List (String × X)) : Decidable (keysDistinct m) := by
  unfold keysDistinct; infer_instance

end Dict

/-! ## Entity identity allocator -/

/-- Modelled from the spec: `EntityManager` (`entity_manager.hpp` is missing), section 4.1.
It issues fresh identities (`next` is the smallest never issued), recycles destroyed ones
through `pool`, knows which identities are `live` and owns one signature per entity. -/
structure EntityManager where
  next : Entity
  pool : List Entity
  live : Finset Entity
  signatures : Entity → Signature

namespace EntityManager

/-- Modelled from the spec: the allocator a fresh `EntityManager` starts with. -/
def init : EntityManager :=
  { next := 0, pool := [], live := ∅, signatures := fun _ => 0 }

/-- Modelled from the spec: `EntityManager::createEntity`, which returns a fresh or recycled
identity and assigns it a zero signature, and fails when the number of live entities would
exceed `MAX_ENTITIES`. -/
def createEntity (MAX_ENTITIES : Nat) (em : EntityManager) : Outcome EntityManager Entity :=
  if MAX_ENTITIES ≤ em.live.card then (.error .capacityExceeded, em)
  else
    match em.pool with
    | id :: rest =>
      (.ok id, { em with pool := rest, live := insert id em.live,
                         signatures := fun e => if e = id then 0 else em.signatures e })
    | [] =>
      (.ok em.next, { em with next := em.next + 1, live := insert em.next em.live,
                              signatures := fun e => if e = em.next then 0 else em.signatures e })

/-- Modelled from the spec: `EntityManager::destroyEntity`, which invalidates the identity
and returns it to the recycling pool, and fails when the entity is not live. -/
def destroyEntity (em : EntityManager) (entity : Entity) : Outcome EntityManager Unit :=
  if entity ∈ em.live then
    (.ok (), { em with live := em.live.erase entity, pool := em.pool ++ [entity] })
  else (.error .notLive, em)

/-- Modelled from the spec: `EntityManager::getSignature`, a pure accessor. -/
def getSignature (em : EntityManager) (entity : Entity) : Signature :=
  em.signatures entity

/-- Modelled from the spec: `EntityManager::setSignature`, a pure accessor. -/
def setSignature (em : EntityManager) (entity : Entity) (signature : Signature) :
    EntityManager :=
  { em with signatures := fun e => if e = entity then signature else em.signatures e }

end EntityManager

/-! ## Component store -/

/-- Modelled from the spec: the packed dense array of one component type (section 4.2):
the components in dense order, each with the entity that owns it.  The entity-to-index
mapping is the position of the entity in this list. -/
abbrev ComponentArray (V : Type) := List (Entity × V)

namespace ComponentArray

variable {V : Type}

/-- Modelled from the spec: `get(Entity)`, absent when the entity holds no component. -/
def get : ComponentArray V → Entity → Option V
  | [], _ => none
  | p :: rest, entity => if p.1 == entity then some p.2 else get rest entity

/-- Modelled from the spec: `has(Entity)`. -/
def has (a : ComponentArray V) (entity : Entity) : Bool :=
  (get a entity).isSome

/-- Modelled from the spec: insertion at the end of the packed dense array. -/
def add (a : ComponentArray V) (entity : Entity) (value : V) : ComponentArray V :=
  a ++ [(entity, value)]

/-- Modelled from the spec: removal by swapping the last dense element into the freed
slot: the slot of `entity` receives the last element and the array loses its last cell. -/
def remove : ComponentArray V → Entity → ComponentArray V
  | [], _ => []
  | p :: rest, entity =>
    if p.1 == entity then
      match rest.getLast? with
      | some last => last :: rest.dropLast
      | none => []
    else p :: remove rest entity

/-- Modelled from the spec: a write through the reference `get` returns, which replaces the
value in place. -/
def write : ComponentArray V → Entity → V → ComponentArray V
  | [], _, _ => []
  | p :: rest, entity, value =>
    if p.1 == entity then (p.1, value) :: rest else p :: write rest entity value

/-- The entities that own a component in this array, in dense order. -/
def owners (a : ComponentArray V) : List Entity := a.map Prod.fst

end ComponentArray

/-- Modelled from the spec: `ComponentManager` (`component_manager.hpp` is missing),
section 4.2.  `componentTypes` lists the registered types in registration order, so that
the tag of a type is its position; `componentArrays` is the table of dense arrays keyed by
tag. -/
structure ComponentManager (V : Type) where
  componentTypes : List TypeName
  componentArrays : ComponentType → ComponentArray V

namespace ComponentManager

variable {V : Type}

/-- Modelled from the spec: a component manager with no registered type. -/
def init : ComponentManager V :=
  { componentTypes := [], componentArrays := fun _ => [] }

/-- Modelled from the spec: `getComponentType<T>()`, the tag assigned at registration. -/
def getComponentType (cm : ComponentManager V) (T : TypeName) : Except Error ComponentType :=
  if T ∈ cm.componentTypes then .ok (cm.componentTypes.indexOf T) else .error .notRegistered

/-- Modelled from the spec: `registerComponent<T>()` assigns the next tag to an unregistered
type with an empty store, is a no-op on a registered one, and fails beyond
`MAX_COMPONENTS`. -/
def registerComponent (MAX_COMPONENTS : Nat) (cm : ComponentManager V) (T : TypeName) :
    Outcome (ComponentManager V) Unit :=
  if T ∈ cm.componentTypes then (.ok (), cm)
  else if MAX_COMPONENTS ≤ cm.componentTypes.length then (.error .capacityExceeded, cm)
  else
    (.ok (), { componentTypes := cm.componentTypes ++ [T],
               componentArrays := fun t =>
                 if t = cm.componentTypes.length then [] else cm.componentArrays t })

/-- Modelled from the spec: `hasComponent<T>(entity)`, which never fails. -/
def hasComponent (cm : ComponentManager V) (T : TypeName) (entity : Entity) : Bool :=
  match getComponentType cm T with
  | .ok t => (cm.componentArrays t).has entity
  | .error _ => false

/-- Modelled from the spec: `getComponent<T>(entity)`, which fails if absent. -/
def getComponent (cm : ComponentManager V) (T : TypeName) (entity : Entity) :
    Except Error V :=
  match getComponentType cm T with
  | .ok t =>
    match (cm.componentArrays t).get entity with
    | some v => .ok v
    | none => .error .notFound
  | .error err => .error err

/-- Modelled from the spec: `addComponent<T>(entity, component)`, which fails if the entity
already holds that type and otherwise inserts into the dense array. -/
def addComponent (cm : ComponentManager V) (T : TypeName) (entity : Entity) (component : V) :
    Outcome (ComponentManager V) Unit :=
  match getComponentType cm T with
  | .ok t =>
    if (cm.componentArrays t).has entity then (.error .duplicate, cm)
    else
      (.ok (), { cm with componentArrays := fun i =>
                   if i = t then (cm.componentArrays t).add entity component
                   else cm.componentArrays i })
  | .error err => (.error err, cm)

/-- Modelled from the spec: `removeComponent<T>(entity)`, which fails if absent and
otherwise removes by swapping with the last dense element. -/
def removeComponent (cm : ComponentManager V) (T : TypeName) (entity : Entity) :
    Outcome (ComponentManager V) Unit :=
  match getComponentType cm T with
  | .ok t =>
    if (cm.componentArrays t).has entity then
      (.ok (), { cm with componentArrays := fun i =>
                   if i = t then (cm.componentArrays t).remove entity
                   else cm.componentArrays i })
    else (.error .notFound, cm)
  | .error err => (.error err, cm)

/-- Modelled from the spec: a write through the reference returned by
`getComponent<T>(entity)`; fails like `getComponent` if there is nothing to refer to. -/
def writeComponent (cm : ComponentManager V) (T : TypeName) (entity : Entity) (value : V) :
    Outcome (ComponentManager V) Unit :=
  match getComponentType cm T with
  | .ok t =>
    if (cm.componentArrays t).has entity then
      (.ok (), { cm with componentArrays := fun i =>
                   if i = t then (cm.componentArrays t).write entity value
                   else cm.componentArrays i })
    else (.error .notFound, cm)
  | .error err => (.error err, cm)

/-- Modelled from the spec: `entityDestroyed(entity)`, which removes the entity's component
from the store of every registered type that holds one, without erroring if absent. -/
def entityDestroyed (cm : ComponentManager V) (entity : Entity) : ComponentManager V :=
  { cm with componentArrays := fun t =>
      if t < cm.componentTypes.length ∧ (cm.componentArrays t).has entity
      then (cm.componentArrays t).remove entity
      else cm.componentArrays t }

end ComponentManager

/-! ## Systems -/

/-- The class `System` of `system.hpp`: the set of entities the system runs on (the update
mutex carries no data). -/
structure System where
  entities : Finset Entity
  deriving DecidableEq

/-- Modelled from the spec: one registered system with its required signature
(section 4.3). -/
structure SystemRecord where
  name : TypeName
  signature : Signature
  system : System
  deriving DecidableEq

/-- Modelled from the spec: `SystemManager` (`system_manager.hpp` is missing), section 4.3:
one record per registered system type, and the entities the registry tracks: those it was
told a signature of and that were not destroyed since, each with the signature it was last
told (`setSignature` receives no entity signature, so what it re-evaluates is kept here). -/
structure SystemManager where
  systems : List SystemRecord
  tracked : Finset Entity
  signatures : Entity → Signature

namespace SystemManager

/-- Modelled from the spec: a registry with no system and no tracked entity. -/
def init : SystemManager := { systems := [], tracked := ∅, signatures := fun _ => 0 }

/-- Modelled from the spec: `registerSystem<T>()` stores exactly one instance per system
type, with an empty requirement and no entity; a second registration keeps the first. -/
def registerSystem (sm : SystemManager) (T : TypeName) : SystemManager :=
  if sm.systems.any (fun r => r.name == T) then sm
  else
    { sm with
      systems := sm.systems ++ [{ name := T, signature := 0, system := { entities := ∅ } }] }

/-- Modelled from the spec: `setSignature<T>(signature)` records the requirement of system
`T` and re-evaluates every currently tracked entity against it: the entity set of `T`
becomes the tracked entities whose signature covers the new requirement (added if now
matching, removed if no longer matching). -/
def setSignature (sm : SystemManager) (T : TypeName) (signature : Signature) : SystemManager :=
  { sm with
    systems := sm.systems.map (fun r =>
      if r.name == T then
        { r with
          signature := signature,
          system :=
            { entities :=
                sm.tracked.filter (fun e => Signature.covers (sm.signatures e) signature) } }
      else r) }

/-- Modelled from the spec: `entitySignatureChanged(entity, signature)`: every system whose
requirement the new signature covers inserts the entity, every other one erases it; the
registry tracks the entity with that signature from then on. -/
def entitySignatureChanged (sm : SystemManager) (entity : Entity) (signature : Signature) :
    SystemManager :=
  { systems := sm.systems.map (fun r =>
      if Signature.covers signature r.signature
      then { r with system := { entities := insert entity r.system.entities } }
      else { r with system := { entities := r.system.entities.erase entity } }),
    tracked := insert entity sm.tracked,
    signatures := fun e => if e = entity then signature else sm.signatures e }

/-- Modelled from the spec: `entityDestroyed(entity)` erases the entity from every system's
set unconditionally; the registry stops tracking it. -/
def entityDestroyed (sm : SystemManager) (entity : Entity) : SystemManager :=
  { sm with
    systems := sm.systems.map (fun r =>
      { r with system := { entities := r.system.entities.erase entity } }),
    tracked := sm.tracked.erase entity }

end SystemManager

/-! ## Snapshot records -/

/-- The values a snapshot record holds in a field: the part of `nlohmann::json` the
snapshot code uses (a number, a string, `null`) and the component data a serializer
stores. -/
inductive JsonValue (V : Type) where
  | null
  | number (n : Nat)
  | string (s : String)
  | data (v : V)
  deriving DecidableEq, Repr

/-- A snapshot record: a JSON object, kept as its fields. -/
abbrev Json (V : Type) := List (String × JsonValue V)

/-- The snapshot store: `Snapshot` is a vector of records. -/
abbrev Snapshot (V : Type) := List (Json V)

/-- `std::string::find(needle)`: the first position at which `needle` occurs in the
string, `none` standing for `npos`. -/
def stringFind : List Char → List Char → Option Nat
  | [], needle => if needle.isEmpty then some 0 else none
  | c :: cs, needle =>
    if needle.isPrefixOf (c :: cs) then some 0 else (stringFind cs needle).map (· + 1)

/-! ## The world facade -/

/-- The class `Coordinator`: the three managers, the name directory `entities` and the
snapshot store (the lock carries no data). -/
structure Coordinator (V : Type) where
  component_manager : ComponentManager V
  entity_manager : EntityManager
  system_manager : SystemManager
  entities : List (String × Entity)
  snapshot : Snapshot V

/-- A serializer callback `void(json &, Entity &)`: it fills the record from what it reads
of the world. -/
abbrev StateSerializer (V : Type) := Coordinator V → Json V → Entity → Json V

/-- A deserializer callback `void(json &, Entity &)`: it receives the record by reference
and acts on the world, so it yields the record and the world it leaves. -/
abbrev StateDeserializer (V : Type) := Json V → Entity → Coordinator V → Json V × Coordinator V

namespace Coordinator

variable {V : Type}

/-- A coordinator as constructed: empty directory and snapshot store, managers not yet
made (kept as empty managers). -/
def constructed : Coordinator V :=
  { component_manager := ComponentManager.init, entity_manager := EntityManager.init,
    system_manager := SystemManager.init, entities := [], snapshot := [] }

/-- `Coordinator::init`: makes the three managers anew. -/
def init (c : Coordinator V) : Coordinator V :=
  { c with component_manager := ComponentManager.init, entity_manager := EntityManager.init,
           system_manager := SystemManager.init }

/-- `Coordinator::createKey`: the random identifier `Random::generateRandomID(12)` returns,
here the argument `generated`. -/
def createKey (_id : Entity) (generated : String) : String := generated

/-- `Coordinator::createEntity()`: allocates an identity and files it under a generated
key. -/
def createEntity (MAX_ENTITIES : Nat) (c : Coordinator V) (generated : String) :
    Outcome (Coordinator V) Entity :=
  match c.entity_manager.createEntity MAX_ENTITIES with
  | (.ok id, em) =>
    (.ok id, { c with entity_manager := em,
                      entities := Dict.assign c.entities (createKey id generated) id })
  | (.error err, em) => (.error err, { c with entity_manager := em })

/-- `Coordinator::createEntity(const std::string &)`: returns the entity filed under `key`
or allocates one under that name (`contains(key)` followed by `entities[key]` is the one
lookup `Dict.find`). -/
def createEntityNamed (MAX_ENTITIES : Nat) (c : Coordinator V) (key : String) :
    Outcome (Coordinator V) Entity :=
  match Dict.find c.entities key with
  | some id => (.ok id, c)
  | none =>
    match c.entity_manager.createEntity MAX_ENTITIES with
    | (.ok id, em) =>
      (.ok id, { c with entity_manager := em, entities := Dict.assign c.entities key id })
    | (.error err, em) => (.error err, { c with entity_manager := em })

/-- `Coordinator::getEntityKey`: the name of the first directory entry whose value is `id`,
the empty string if there is none. -/
def getEntityKey (c : Coordinator V) (id : Entity) : String :=
  match c.entities.find? (fun p => p.2 == id) with
  | some p => p.1
  | none => ""

/-- `Coordinator::destroyEntity(Entity)`. -/
def destroyEntity (c : Coordinator V) (entity : Entity) : Outcome (Coordinator V) Unit :=
  match c.entity_manager.destroyEntity entity with
  | (.ok _, em) =>
    (.ok (), { c with entity_manager := em,
                      component_manager := c.component_manager.entityDestroyed entity,
                      system_manager := c.system_manager.entityDestroyed entity,
                      entities := Dict.erase c.entities (getEntityKey c entity) })
  | (.error err, em) => (.error err, { c with entity_manager := em })

/-- `Coordinator::destroyEntity(const std::string &)`. -/
def destroyEntityNamed (c : Coordinator V) (key : String) : Outcome (Coordinator V) Unit :=
  match Dict.find c.entities key with
  | some id => destroyEntity c id
  | none => (.ok (), c)

/-- `Coordinator::registerComponent<T>`. -/
def registerComponent (MAX_COMPONENTS : Nat) (c : Coordinator V) (T : TypeName) :
    Outcome (Coordinator V) Unit :=
  match c.component_manager.registerComponent MAX_COMPONENTS T with
  | (r, cm) => (r, { c with component_manager := cm })

/-- `Coordinator::hasComponent<T>`. -/
def hasComponent (c : Coordinator V) (T : TypeName) (entity : Entity) : Bool :=
  c.component_manager.hasComponent T entity

/-- `Coordinator::getComponent<T>`, as a read. -/
def getComponent (c : Coordinator V) (T : TypeName) (entity : Entity) : Except Error V :=
  c.component_manager.getComponent T entity

/-- `Coordinator::getComponentType<T>`. -/
def getComponentType (c : Coordinator V) (T : TypeName) : Except Error ComponentType :=
  c.component_manager.getComponentType T

/-- A write through the reference `Coordinator::getComponent<T>` returns. -/
def writeComponent (c : Coordinator V) (T : TypeName) (entity : Entity) (value : V) :
    Outcome (Coordinator V) Unit :=
  match c.component_manager.writeComponent T entity value with
  | (r, cm) => (r, { c with component_manager := cm })

/-- `Coordinator::addComponent<T>`. -/
def addComponent (c : Coordinator V) (T : TypeName) (entity : Entity) (component : V) :
    Outcome (Coordinator V) Unit :=
  if c.component_manager.hasComponent T entity then (.ok (), c)
  else
    match c.component_manager.addComponent T entity component with
    | (.error err, cm) => (.error err, { c with component_manager := cm })
    | (.ok _, cm) =>
      match cm.getComponentType T with
      | .error err => (.error err, { c with component_manager := cm })
      | .ok t =>
        let signature := Signature.set (c.entity_manager.getSignature entity) t true
        (.ok (), { c with component_manager := cm,
                          entity_manager := c.entity_manager.setSignature entity signature,
                          system_manager :=
                            c.system_manager.entitySignatureChanged entity signature })

/-- `Coordinator::removeComponent<T>`. -/
def removeComponent (c : Coordinator V) (T : TypeName) (entity : Entity) :
    Outcome (Coordinator V) Unit :=
  match c.component_manager.removeComponent T entity with
  | (.error err, cm) => (.error err, { c with component_manager := cm })
  | (.ok _, cm) =>
    match cm.getComponentType T with
    | .error err => (.error err, { c with component_manager := cm })
    | .ok t =>
      let signature := Signature.set (c.entity_manager.getSignature entity) t false
      (.ok (), { c with component_manager := cm,
                        entity_manager := c.entity_manager.setSignature entity signature,
                        system_manager :=
                          c.system_manager.entitySignatureChanged entity signature })

/-- `Coordinator::getEntitiesWithComponent<T>`. -/
def getEntitiesWithComponent (c : Coordinator V) (T : TypeName) : List Entity :=
  (c.entities.filter (fun p => c.component_manager.hasComponent T p.2)).map Prod.snd

/-- `Coordinator::registerSystem<T>`. -/
def registerSystem (c : Coordinator V) (T : TypeName) : Coordinator V :=
  { c with system_manager := c.system_manager.registerSystem T }

/-- `Coordinator::setSystemSignature<T>`. -/
def setSystemSignature (c : Coordinator V) (T : TypeName) (signature : Signature) :
    Coordinator V :=
  { c with system_manager := c.system_manager.setSignature T signature }

/-- `Coordinator::getEntityIds`. -/
def getEntityIds (c : Coordinator V) : List (String × Entity) := c.entities

/-- `Coordinator::getEntitiesStartsWith`: the entities whose key has `searchTerm` at
position 0. -/
def getEntitiesStartsWith (c : Coordinator V) (searchTerm : String) : List Entity :=
  (c.entities.filter (fun p => stringFind p.1.toList searchTerm.toList == some 0)).map Prod.snd

/-- `Coordinator::createSnapshot`. -/
def createSnapshot (c : Coordinator V) (entity : Entity) (id : String)
    (serializer : StateSerializer V) : Json V :=
  let snapshot : Json V := []
  let snapshot := Dict.assign snapshot "entity" (JsonValue.number entity)
  let snapshot := Dict.assign snapshot "eId" (JsonValue.string id)
  serializer c snapshot entity

/-- `Coordinator::backup`: clears the store, then appends one record per directory entry. -/
def backup (c : Coordinator V) (serializer : StateSerializer V) : Coordinator V :=
  c.entities.foldl
    (fun acc p => { acc with snapshot := acc.snapshot ++ [createSnapshot acc p.2 p.1 serializer] })
    { c with snapshot := [] }

/-- `Coordinator::restoreEntity`, on the record that sits in cell `slot` of the store: the
deserializer gets the record by reference, so what it leaves in it is stored back. -/
def restoreEntity (MAX_ENTITIES : Nat) (c : Coordinator V) (slot : Nat) (entitySnap : Json V)
    (deserializer : StateDeserializer V) : Outcome (Coordinator V) Unit :=
  match Dict.find entitySnap "eId" with
  | some (JsonValue.string key) =>
    match createEntityNamed MAX_ENTITIES c key with
    | (.ok entity, c1) =>
      let out := deserializer entitySnap entity c1
      (.ok (), { out.2 with snapshot := out.2.snapshot.set slot out.1 })
    | (.error err, c1) => (.error err, c1)
  | some _ => (.error .typeError, c)
  | none =>
    (.error .typeError,
      { c with snapshot := c.snapshot.set slot (Dict.assign entitySnap "eId" JsonValue.null) })

/-- The loop of `Coordinator::restore` over the records from cell `slot` on. -/
def restoreFrom (MAX_ENTITIES : Nat) (deserializer : StateDeserializer V) :
    List (Json V) → Nat → Coordinator V → Outcome (Coordinator V) Unit
  | [], _, c => (.ok (), c)
  | entitySnap :: rest, slot, c =>
    match restoreEntity MAX_ENTITIES c slot entitySnap deserializer with
    | (.ok _, c1) => restoreFrom MAX_ENTITIES deserializer rest (slot + 1) c1
    | (.error err, c1) => (.error err, c1)

/-- `Coordinator::restore`. -/
def restore (MAX_ENTITIES : Nat) (c : Coordinator V) (deserializer : StateDeserializer V) :
    Outcome (Coordinator V) Unit :=
  restoreFrom MAX_ENTITIES deserializer c.snapshot 0 c

end Coordinator

/-! ## Sequences of calls -/

/-- A call on the coordinator. -/
inductive Op (V : Type) where
  | createEntity (generated : String)
  | createEntityNamed (key : String)
  | destroyEntity (entity : Entity)
  | destroyEntityNamed (key : String)
  | registerComponent (T : TypeName)
  | addComponent (T : TypeName) (entity : Entity) (component : V)
  | removeComponent (T : TypeName) (entity : Entity)
  | writeComponent (T : TypeName) (entity : Entity) (value : V)
  | registerSystem (T : TypeName)
  | setSystemSignature (T : TypeName) (signature : Signature)
  | backup (serializer : StateSerializer V)
  | restore (deserializer : StateDeserializer V)

/-- The state a call leaves, whether it returned or reported an error. -/
def step {V : Type} (MAX_ENTITIES MAX_COMPONENTS : Nat) (c : Coordinator V) :
    Op V → Coordinator V
  | .createEntity generated => (c.createEntity MAX_ENTITIES generated).2
  | .createEntityNamed key => (c.createEntityNamed MAX_ENTITIES key).2
  | .destroyEntity entity => (c.destroyEntity entity).2
  | .destroyEntityNamed key => (c.destroyEntityNamed key).2
  | .registerComponent T => (c.registerComponent MAX_COMPONENTS T).2
  | .addComponent T entity component => (c.addComponent T entity component).2
  | .removeComponent T entity => (c.removeComponent T entity).2
  | .writeComponent T entity value => (c.writeComponent T entity value).2
  | .registerSystem T => c.registerSystem T
  | .setSystemSignature T signature => c.setSystemSignature T signature
  | .backup serializer => c.backup serializer
  | .restore deserializer => (c.restore MAX_ENTITIES deserializer).2

/-- The state after a sequence of calls. -/
def run {V : Type} (MAX_ENTITIES MAX_COMPONENTS : Nat) (c : Coordinator V) (ops : List (Op V)) :
    Coordinator V :=
  ops.foldl (step MAX_ENTITIES MAX_COMPONENTS) c

/-- The world right after `init()` on a newly constructed coordinator. -/
def world0 (V : Type) : Coordinator V := Coordinator.init Coordinator.constructed

/-! ## Well-formed worlds and disciplined call sequences -/

/-- The allocator's bookkeeping is coherent: pooled identities are distinct, dead and were
issued before; live identities were issued before. -/
structure EntityManager.WF (em : EntityManager) : Prop where
  pool_nodup : em.pool.Nodup
  pool_dead : ∀ e ∈ em.pool, e ∉ em.live
  pool_lt : ∀ e ∈ em.pool, e < em.next
  live_lt : ∀ e ∈ em.live, e < em.next

/-- Signatures and component stores agree: type names and the owners of each dense array
are distinct, unregistered tags have no store content, a live entity has bit `t` set exactly
when the store of tag `t` holds a component for it, and no store holds anything for an
entity that is not live. -/
structure Consistent {V : Type} (c : Coordinator V) : Prop where
  alloc : c.entity_manager.WF
  types_nodup : c.component_manager.componentTypes.Nodup
  owners_nodup : ∀ t, (c.component_manager.componentArrays t).owners.Nodup
  unregistered : ∀ t, c.component_manager.componentTypes.length ≤ t →
    c.component_manager.componentArrays t = []
  live_sync : ∀ e ∈ c.entity_manager.live, ∀ t,
    Signature.test (c.entity_manager.signatures e) t = (c.component_manager.componentArrays t).has e
  dead_clean : ∀ e, e ∉ c.entity_manager.live → ∀ t,
    (c.component_manager.componentArrays t).has e = false

/-- Every system tracks live entities only, and a system with a non-empty requirement
tracks exactly the live entities whose signature covers it. -/
def SystemsTrack {V : Type} (c : Coordinator V) : Prop :=
  ∀ r ∈ c.system_manager.systems,
    (∀ e ∈ r.system.entities, e ∈ c.entity_manager.live) ∧
    (r.signature ≠ 0 → ∀ e, e ∈ r.system.entities ↔
      (e ∈ c.entity_manager.live ∧
        Signature.covers (c.entity_manager.getSignature e) r.signature = true))

/-- The registry's record of the entities is in step with the allocator: a tracked entity
is live and the signature recorded for it is its signature, and every live entity with a
non-empty signature is tracked. -/
structure RegistryInSync {V : Type} (c : Coordinator V) : Prop where
  tracked_live : ∀ e ∈ c.system_manager.tracked, e ∈ c.entity_manager.live
  tracked_signature : ∀ e ∈ c.system_manager.tracked,
    c.system_manager.signatures e = c.entity_manager.getSignature e
  known : ∀ e ∈ c.entity_manager.live, c.entity_manager.getSignature e ≠ 0 →
    e ∈ c.system_manager.tracked

/-- The directory names live entities, each under one name only. -/
structure DirectoryInv {V : Type} (c : Coordinator V) : Prop where
  alloc : c.entity_manager.WF
  keys : Dict.keysDistinct c.entities
  injective : (c.entities.map Prod.snd).Nodup
  live : ∀ p ∈ c.entities, p.2 ∈ c.entity_manager.live

/-- A call is admissible in world `c` when it is one of the facade's own operations and
`addComponent` names a live entity; `restore`, which runs caller code, is left out. -/
def Op.admissible {V : Type} (c : Coordinator V) : Op V → Bool
  | .addComponent _ entity _ => decide (entity ∈ c.entity_manager.live)
  | .restore _ => false
  | _ => true

/-- Every call of the sequence is admissible in the world it is made in. -/
def admissibleFrom {V : Type} (MAX_ENTITIES MAX_COMPONENTS : Nat) (c : Coordinator V) :
    List (Op V) → Bool
  | [] => true
  | op :: ops =>
    op.admissible c && admissibleFrom MAX_ENTITIES MAX_COMPONENTS
      (step MAX_ENTITIES MAX_COMPONENTS c op) ops

/-- A deserializer that keeps the directory sound: handed a world whose directory names
live entities, each under one name only, it leaves such a world. -/
def StateDeserializer.keepsDirectory {V : Type} (d : StateDeserializer V) : Prop :=
  ∀ (r : Json V) (e : Entity) (c : Coordinator V), DirectoryInv c → DirectoryInv (d r e c).2

/-- The callbacks a call carries keep the directory sound. -/
def Op.keepsDirectory {V : Type} : Op V → Prop
  | .restore d => d.keepsDirectory
  | _ => True

/-- A serializer as a game would pass it: it records the entity's component of type `T`,
when there is one, in the field named `T`. -/
def recordComponent {V : Type} (T : TypeName) : StateSerializer V :=
  fun c snapshot entity =>
    match c.getComponent T entity with
    | .ok v => Dict.assign snapshot T (JsonValue.data v)
    | .error _ => snapshot

/-- The deserializer that goes with `recordComponent`: it writes the value found in the
field named `T` back into the entity's component. -/
def writeBackComponent {V : Type} (T : TypeName) : StateDeserializer V :=
  fun snapshot entity c =>
    match Dict.find snapshot T with
    | some (JsonValue.data v) => (snapshot, (c.writeComponent T entity v).2)
    | _ => (snapshot, c)

/-- A deserializer that changes the world through facade calls only: the calls `ops` picks
for the record and the entity it is handed. -/
def viaFacade {V : Type} (MAX_ENTITIES MAX_COMPONENTS : Nat)
    (ops : Json V → Entity → List (Op V)) : StateDeserializer V :=
  fun snapshot entity c => (snapshot, run MAX_ENTITIES MAX_COMPONENTS c (ops snapshot entity))

/-- A world with one entity `"P"` that has a position `(10, 20)`. -/
def positionWorld : Coordinator (Int × Int) :=
  run 8 8 (world0 (Int × Int))
    [.registerComponent "Position", .createEntityNamed "P", .addComponent "Position" 0 (10, 20)]

/-- A session that creates an entity, backs the world up, destroys the entity and restores
the snapshot. -/
def restoreSession : List (Op (Int × Int)) :=
  [.registerComponent "Position", .createEntityNamed "P", .addComponent "Position" 0 (10, 20),
   .backup (recordComponent "Position"), .destroyEntityNamed "P",
   .restore (writeBackComponent "Position")]

/-- A world whose snapshot store holds the records of `"P"` and `"R"`, taken when their
positions were `(10, 20)` and `(30, 40)`; since then `"R"` was destroyed, the position of
`"P"` was changed to `(99, 99)` and `"Q"` was created with position `(7, 7)`. -/
def additiveWorld : Coordinator (Int × Int) :=
  run 8 8 (world0 (Int × Int))
    [.registerComponent "Position", .createEntityNamed "P", .addComponent "Position" 0 (10, 20),
     .createEntityNamed "R", .addComponent "Position" 1 (30, 40),
     .backup (recordComponent "Position"), .destroyEntityNamed "R",
     .writeComponent "Position" 0 (99, 99), .createEntityNamed "Q",
     .addComponent "Position" 1 (7, 7)]

/-! ## The set-up of `main.cpp` and the keyboard movement system -/

/-- A call made from `main`: an error is an exception nobody catches, which ends the
program; otherwise the value and the world the call leaves. -/
def calling {σ α : Type} (o : Outcome σ α) : Except Error (α × σ) :=
  match o with
  | (.ok a, s) => .ok (a, s)
  | (.error err, _) => .error err

/-- The set-up part of `main` (`main.cpp`, lines 40 to 109): the component types, the
systems and their signatures, then the entities `"CAMERA"`, `"CHAR"` and `"CLIENT"` with
their components.  Component values play no part in what follows and are left out (`Unit`).
It returns the world and the entities `mainCamera`, `mainChar` and `clientEntity`. -/
def mainSetup (MAX_ENTITIES MAX_COMPONENTS : Nat) :
    Except Error (Coordinator Unit × Entity × Entity × Entity) := do
  let gCoordinator : Coordinator Unit := Coordinator.init Coordinator.constructed
  let (_, gCoordinator) ← calling (gCoordinator.registerComponent MAX_COMPONENTS "Transform")
  let (_, gCoordinator) ← calling (gCoordinator.registerComponent MAX_COMPONENTS "Color")
  let (_, gCoordinator) ← calling (gCoordinator.registerComponent MAX_COMPONENTS "CKinematic")
  let (_, gCoordinator) ← calling (gCoordinator.registerComponent MAX_COMPONENTS "Camera")
  let (_, gCoordinator) ← calling (gCoordinator.registerComponent MAX_COMPONENTS "Gravity")
  let (_, gCoordinator) ←
    calling (gCoordinator.registerComponent MAX_COMPONENTS "KeyboardMovement")
  let (_, gCoordinator) ← calling (gCoordinator.registerComponent MAX_COMPONENTS "Client")
  let (_, gCoordinator) ←
    calling (gCoordinator.registerComponent MAX_COMPONENTS "MovingPlatform")
  let gCoordinator := gCoordinator.registerSystem "RenderSystem"
  let gCoordinator := gCoordinator.registerSystem "KinematicSystem"
  let gCoordinator := gCoordinator.registerSystem "GravitySystem"
  let gCoordinator := gCoordinator.registerSystem "CameraSystem"
  let gCoordinator := gCoordinator.registerSystem "KeyboardMovementSystem"
  let gCoordinator := gCoordinator.registerSystem "ClientSystem"
  let gCoordinator := gCoordinator.registerSystem "MoveBetween2PointsSystem"
  let renderSignature : Signature := 0
  let renderSignature := renderSignature.set (← gCoordinator.getComponentType "Transform") true
  let renderSignature := renderSignature.set (← gCoordinator.getComponentType "Color") true
  let gCoordinator := gCoordinator.setSystemSignature "RenderSystem" renderSignature
  let kinematicSignature : Signature := 0
  let kinematicSignature :=
    kinematicSignature.set (← gCoordinator.getComponentType "Transform") true
  let kinematicSignature :=
    kinematicSignature.set (← gCoordinator.getComponentType "CKinematic") true
  let gCoordinator := gCoordinator.setSystemSignature "KinematicSystem" kinematicSignature
  let gravitySignature : Signature := 0
  let gravitySignature := gravitySignature.set (← gCoordinator.getComponentType "Transform") true
  let gravitySignature := gravitySignature.set (← gCoordinator.getComponentType "Gravity") true
  let gCoordinator := gCoordinator.setSystemSignature "GravitySystem" gravitySignature
  let cameraSignature : Signature := 0
  let cameraSignature := cameraSignature.set (← gCoordinator.getComponentType "Camera") true
  let gCoordinator := gCoordinator.setSystemSignature "CameraSystem" cameraSignature
  let keyboardMovementSignature : Signature := 0
  let keyboardMovementSignature :=
    keyboardMovementSignature.set (← gCoordinator.getComponentType "Transform") true
  let keyboardMovementSignature :=
    keyboardMovementSignature.set (← gCoordinator.getComponentType "CKinematic") true
  let keyboardMovementSignature :=
    keyboardMovementSignature.set (← gCoordinator.getComponentType "KeyboardMovement") true
  let gCoordinator :=
    gCoordinator.setSystemSignature "KeyboardMovementSystem" keyboardMovementSignature
  let clientSignature : Signature := 0
  let clientSignature := clientSignature.set (← gCoordinator.getComponentType "Client") true
  let gCoordinator := gCoordinator.setSystemSignature "ClientSystem" clientSignature
  let movingPlatformSignature : Signature := 0
  let movingPlatformSignature :=
    movingPlatformSignature.set (← gCoordinator.getComponentType "Transform") true
  let movingPlatformSignature :=
    movingPlatformSignature.set (← gCoordinator.getComponentType "MovingPlatform") true
  let movingPlatformSignature :=
    movingPlatformSignature.set (← gCoordinator.getComponentType "CKinematic") true
  let gCoordinator :=
    gCoordinator.setSystemSignature "MoveBetween2PointsSystem" movingPlatformSignature
  let (mainCamera, gCoordinator) ← calling (gCoordinator.createEntityNamed MAX_ENTITIES "CAMERA")
  let (_, gCoordinator) ← calling (gCoordinator.addComponent "Camera" mainCamera ())
  let (mainChar, gCoordinator) ← calling (gCoordinator.createEntityNamed MAX_ENTITIES "CHAR")
  let (_, gCoordinator) ← calling (gCoordinator.addComponent "Transform" mainChar ())
  let (_, gCoordinator) ← calling (gCoordinator.addComponent "Color" mainChar ())
  let (_, gCoordinator) ← calling (gCoordinator.addComponent "CKinematic" mainChar ())
  let (_, gCoordinator) ← calling (gCoordinator.addComponent "KeyboardMovement" mainChar ())
  let (clientEntity, gCoordinator) ←
    calling (gCoordinator.createEntityNamed MAX_ENTITIES "CLIENT")
  let (_, gCoordinator) ← calling (gCoordinator.addComponent "Client" clientEntity ())
  pure (gCoordinator, mainCamera, mainChar, clientEntity)

/-- The entity set of the registered system `T`, empty when there is no such system. -/
def systemEntities {V : Type} (c : Coordinator V) (T : TypeName) : Finset Entity :=
  match c.system_manager.systems.find? (fun r => r.name == T) with
  | some r => r.system.entities
  | none => ∅

/-- The required signature of the registered system `T`. -/
def systemSignature {V : Type} (c : Coordinator V) (T : TypeName) : Option Signature :=
  (c.system_manager.systems.find? (fun r => r.name == T)).map (fun r => r.signature)

/-- The component accesses `KeyboardMovementSystem::update` makes for one entity of its
set, in the order it makes them (`keyboard_movement.cpp`, lines 17 to 20); the first one
that fails ends the update. -/
def KeyboardMovementSystem.updateEntity {V : Type} (gCoordinator : Coordinator V)
    (entity : Entity) : Except Error (V × V × V × V) := do
  let transform ← gCoordinator.getComponent "Transform" entity
  let kinematic ← gCoordinator.getComponent "CKinematic" entity
  let keyboard ← gCoordinator.getComponent "KeyboardMovement" entity
  let jump ← gCoordinator.getComponent "Jump" entity
  pure (transform, kinematic, keyboard, jump)

/-! ## Timelines (`timeline.cpp`)

The wall clock is read as an instant `now`, in microseconds since the epoch; the instant is
the same for all the reads one call makes.  A call that attempts to lock a mutex that is
held never returns: its result is `none`. -/

/-- The data members of a `Timeline` other than `anchor`, and whether its mutex `m` is
held. -/
structure TimelineState where
  start_time : Int
  elapsed_paused_time : Int
  last_paused_time : Int
  paused : Bool
  tic : Int
  m : Bool
  deriving DecidableEq, Repr

/-- A `Timeline` object with the timeline its `anchor` pointer leads to; `root` is an
object whose `anchor` is null. -/
inductive Timeline where
  | root (s : TimelineState)
  | anchored (s : TimelineState) (anchor : Timeline)
  deriving DecidableEq, Repr

/-- `Timeline::currentSystemTime`: the clock reading cast to milliseconds
(`duration_cast` truncates). -/
def currentSystemTime (now : Int) : Int := Int.tdiv now 1000

namespace Timeline

/-- The members of the object itself. -/
def state : Timeline → TimelineState
  | .root s => s
  | .anchored s _ => s

/-- The object with its members replaced, the anchor kept. -/
def withState : Timeline → TimelineState → Timeline
  | .root _, s => .root s
  | .anchored _ anchor, s => .anchored s anchor

/-- `std::lock_guard<std::mutex> lock(m)` at the start of a member function: it blocks for
good when `m` is held, since `std::mutex` is not recursive. -/
def lock (t : Timeline) : Option Timeline :=
  if t.state.m then none else some (t.withState { t.state with m := true })

/-- The release of `m` when the guard goes out of scope. -/
def unlock (t : Timeline) : Timeline := t.withState { t.state with m := false }

/-- `Timeline::getTime`.  The guard is the test of `m` on entry; `m` is free again in the
object returned. -/
def getTime (now : Int) : Timeline → Option (Int × Timeline)
  | .root s =>
    if s.m then none
    else if s.paused then some (s.last_paused_time, .root s)
    else
      let current_time := currentSystemTime now
      let tic := if s.tic = 0 then 1 else s.tic
      some (Int.tdiv (current_time - s.start_time - s.elapsed_paused_time) tic,
        .root { s with tic := tic })
  | .anchored s anchor =>
    if s.m then none
    else if s.paused then some (s.last_paused_time, .anchored s anchor)
    else
      match getTime now anchor with
      | none => none
      | some (current_time, anchor) =>
        let tic := if s.tic = 0 then 1 else s.tic
        some (Int.tdiv (current_time - s.start_time - s.elapsed_paused_time) tic,
          .anchored { s with tic := tic } anchor)

/-- The expression `anchor ? anchor->getTime() : orElse`. -/
def anchorTimeOr (now : Int) (orElse : Int) : Timeline → Option (Int × Timeline)
  | .root s => some (orElse, .root s)
  | .anchored s anchor =>
    match getTime now anchor with
    | none => none
    | some (time, anchor) => some (time, .anchored s anchor)

/-- The constructor `Timeline::Timeline(anchor, tic)`.  `last_paused_time` has no
initialiser; it is zero for the objects of `main.cpp`, which have static storage. -/
def construct (now : Int) (anchor : Option Timeline) (tic : Int) : Option Timeline :=
  match anchor with
  | none =>
    some (.root { start_time := 0, elapsed_paused_time := 0, last_paused_time := 0,
                  paused := false, tic := tic, m := false })
  | some anchor =>
    match getTime now anchor with
    | none => none
    | some (time, anchor) =>
      some (.anchored { start_time := time, elapsed_paused_time := 0, last_paused_time := 0,
                        paused := false, tic := tic, m := false } anchor)

/-- `Timeline::start`. -/
def start (now : Int) (t : Timeline) : Option Timeline := do
  let t ← lock t
  let (time, t) ← anchorTimeOr now (currentSystemTime now) t
  let t := t.withState { t.state with start_time := time, elapsed_paused_time := 0,
                                      paused := false }
  pure (unlock t)

/-- `Timeline::pause`: the call of `getTime` is made with `m` held. -/
def pause (now : Int) (t : Timeline) : Option Timeline := do
  let t ← lock t
  if !t.state.paused then
    let (time, t) ← getTime now t
    let t := t.withState { t.state with last_paused_time := time, paused := true }
    pure (unlock t)
  else
    pure (unlock t)

/-- `Timeline::unpause`. -/
def unpause (now : Int) (t : Timeline) : Option Timeline := do
  let t ← lock t
  if t.state.paused then
    let (current_time, t) ← anchorTimeOr now 0 t
    let t := t.withState
      { t.state with
        elapsed_paused_time := t.state.elapsed_paused_time
          + (current_time - t.state.last_paused_time),
        paused := false }
    pure (unlock t)
  else
    pure (unlock t)

/-- `Timeline::changeTic`: the call of `getTime` is made with `m` held.  The `float`
argument is taken by the integer it is converted to on assignment. -/
def changeTic (now : Int) (t : Timeline) (new_tic : Int) : Option Timeline := do
  let t ← lock t
  let (current_time, t) ← getTime now t
  let t := t.withState { t.state with tic := new_tic }
  match t with
  | .root s => pure (unlock (.root { s with start_time := 0 }))
  | .anchored s anchor =>
    let (time, anchor) ← getTime now anchor
    pure (unlock (.anchored { s with start_time := time - Int.tdiv current_time s.tic } anchor))

/-- `Timeline::isPaused`. -/
def isPaused (t : Timeline) : Option (Bool × Timeline) := do
  let t ← lock t
  pure (t.state.paused, unlock t)

/-- `Timeline::getTic`, which takes no lock. -/
def getTic (t : Timeline) : Int := t.state.tic

/-- No mutex is held, neither the object's nor one along its anchors. -/
def uncontended : Timeline → Bool
  | .root s => !s.m
  | .anchored s anchor => !s.m && uncontended anchor

end Timeline

/-- `anchorTimeline` of `main.cpp`: `Timeline anchorTimeline(nullptr, 1000)`. -/
def anchorTimeline : Timeline :=
  .root { start_time := 0, elapsed_paused_time := 0, last_paused_time := 0, paused := false,
          tic := 1000, m := false }

/-- A timeline anchored on a clock that counts milliseconds from the epoch, started at
anchor time 100, with `tic = 1`. -/
def anchoredTimeline : Timeline :=
  .anchored { start_time := 100, elapsed_paused_time := 0, last_paused_time := 0,
              paused := false, tic := 1, m := false }
    (.root { start_time := 0, elapsed_paused_time := 0, last_paused_time := 0, paused := false,
             tic := 1, m := false })

/-- The timeline `anchoredTimeline` in the state `pause()` is written to leave at anchor time
150: paused, with the time read at that moment, 50, as `last_paused_time`. -/
def pausedTimeline : Timeline :=
  anchoredTimeline.withState { anchoredTimeline.state with last_paused_time := 50, paused := true }

end Shade

/-! # Properties -/

namespace Shade

open Coordinator

variable {V : Type}

/-! ## Directory lookups -/

namespace Dict
variable {X : Type}

theorem find_isSome_iff (m : List (String × X)) (k : String) :
    (find m k).isSome = true ↔ k ∈ m.map Prod.fst := by
  induction m with
  | nil => simp [find]
  | cons p m ih =>
    by_cases hp : p.1 = k
    · simp [find, hp]
    · have : ¬ k = p.1 := fun h => hp h.symm
      simp [find, hp, this, ih]

theorem find_eq_none_iff (m : List (String × X)) (k : String) :
    find m k = none ↔ k ∉ m.map Prod.fst := by
  rw [← find_isSome_iff]; cases find m k <;> simp

theorem find_assign_self (m : List (String × X)) (k : String) (x : X) :
    find (assign m k x) k = some x := by
  induction m with
  | nil => simp [assign, find]
  | cons p m ih =>
    by_cases hp : p.1 = k
    · simp [assign, find, hp]
    · simp [assign, find, hp, ih]

theorem find_assign_ne (m : List (String × X)) (k k2 : String) (x : X) (h : k2 ≠ k) :
    find (assign m k x) k2 = find m k2 := by
  induction m with
  | nil => simp [assign, find, h.symm]
  | cons p m ih =>
    by_cases hp : p.1 = k
    · have h3 : ¬ p.1 = k2 := fun h4 => h (h4.symm.trans hp)
      simp [assign, find, hp, h3, h.symm]
    · by_cases h5 : p.1 = k2
      · simp [assign, find, hp, h5, h]
      · simp [assign, find, hp, h5, ih]

theorem keys_assign (m : List (String × X)) (k : String) (x : X) :
    (assign m k x).map Prod.fst =
      if (find m k).isSome then m.map Prod.fst else m.map Prod.fst ++ [k] := by
  induction m with
  | nil => simp [assign, find]
  | cons p m ih =>
    by_cases hp : p.1 = k
    · simp [assign, find, hp]
    · simp only [assign, find, hp, beq_iff_eq, if_false, List.map_cons, ih]
      split <;> simp

theorem keysDistinct_assign (m : List (String × X)) (k : String) (x : X)
    (hd : keysDistinct m) : keysDistinct (assign m k x) := by
  unfold keysDistinct at *
  rw [keys_assign]
  by_cases hc : (find m k).isSome = true
  · simpa [hc] using hd
  · have : k ∉ m.map Prod.fst := by rwa [← find_isSome_iff]
    simp only [hc, Bool.false_eq_true, if_false]
    rw [List.nodup_append]
    refine ⟨hd, List.nodup_singleton k, ?_⟩
    intro a ha hb
    simp only [List.mem_singleton] at hb
    exact this (hb ▸ ha)

theorem mem_erase (m : List (String × X)) (k : String) (p : String × X) :
    p ∈ erase m k ↔ p ∈ m ∧ p.1 ≠ k := by
  unfold erase
  simp [List.mem_filter]

theorem keysDistinct_erase (m : List (String × X)) (k : String)
    (hd : keysDistinct m) : keysDistinct (erase m k) := by
  unfold keysDistinct erase at *
  exact (List.Sublist.map _ (List.filter_sublist m)).nodup hd 

end Dict

/-! ## Substring search -/

theorem stringFind_eq_zero_iff (s t : List Char) :
    stringFind s t = some 0 ↔ t <+: s := by
  cases s with
  | nil =>
    cases t with
    | nil => simp [stringFind]
    | cons a t => simp [stringFind]
  | cons c cs =>
    unfold stringFind
    by_cases h : t.isPrefixOf (c :: cs) = true
    · simp only [h, if_true, true_iff]
      exact List.isPrefixOf_iff_prefix.mp h
    · have h2 : ¬ t <+: c :: cs := fun hp => h (List.isPrefixOf_iff_prefix.mpr hp)
      simp only [h, if_false, h2, iff_false]
      cases stringFind cs t <;> simp

namespace Signature

theorem test_zero (i : Nat) : test 0 i = false := by simp [test]

theorem test_set_true (s : Signature) (pos i : Nat) :
    test (set s pos true) i = (test s i || decide (pos = i)) := by
  simp [test, set, Nat.testBit_or, Nat.one_shiftLeft, Nat.testBit_two_pow]

theorem test_set_false (s : Signature) (pos i : Nat) :
    test (set s pos false) i = (test s i && !decide (pos = i)) := by
  simp only [test, set, Bool.false_eq_true, if_false, Nat.testBit_xor, Nat.testBit_and,
    Nat.one_shiftLeft, Nat.testBit_two_pow]
  cases Nat.testBit s i <;> cases decide (pos = i) <;> rfl

theorem covers_zero_left (r : Signature) : covers 0 r = decide (r = 0) := by
  unfold covers
  by_cases h : r = 0
  · simp [h]
  · have h2 : ¬ 0 = r := fun h3 => h h3.symm
    simp [h, h2]

end Signature

namespace ComponentArray

theorem has_iff_mem_owners (a : ComponentArray V) (e : Entity) :
    has a e = true ↔ e ∈ owners a := by
  unfold has owners
  induction a with
  | nil => simp [get]
  | cons p a ih =>
    by_cases hp : p.1 = e
    · simp [get, hp]
    · have : ¬ e = p.1 := fun h => hp h.symm
      simp [get, hp, this, ih]

theorem has_eq_false_iff (a : ComponentArray V) (e : Entity) :
    has a e = false ↔ e ∉ owners a := by
  rw [← has_iff_mem_owners]; simp

theorem get_eq_some_iff (a : ComponentArray V) (e : Entity) (v : V) (hn : (owners a).Nodup) :
    get a e = some v ↔ (e, v) ∈ a := by
  unfold owners at hn
  induction a with
  | nil => simp [get]
  | cons p a ih =>
    simp only [List.map_cons, List.nodup_cons] at hn
    by_cases hp : p.1 = e
    · simp only [get, hp, beq_self_eq_true, if_true, Option.some.injEq, List.mem_cons]
      constructor
      · intro h; left; rw [← hp, ← h]
      · rintro (h | h)
        · rw [← h]
        · exfalso; apply hn.1; rw [hp]; exact List.mem_map.mpr ⟨_, h, rfl⟩
    · simp only [get, hp, beq_iff_eq, if_false, List.mem_cons, ih hn.2]
      constructor
      · intro h; right; exact h
      · rintro (h | h)
        · exfalso; apply hp; rw [← h]
        · exact h

theorem get_ext (a b : ComponentArray V) (ha : (owners a).Nodup) (hb : (owners b).Nodup)
    (e : Entity) (h : ∀ v, (e, v) ∈ a ↔ (e, v) ∈ b) : get a e = get b e := by
  cases hg : get a e with
  | some v =>
    rw [get_eq_some_iff a e v ha, h, ← get_eq_some_iff b e v hb] at hg
    exact hg.symm
  | none =>
    cases hg2 : get b e with
    | none => rfl
    | some v =>
      rw [get_eq_some_iff b e v hb, ← h, ← get_eq_some_iff a e v ha] at hg2
      rw [hg] at hg2; cases hg2

theorem owners_add (a : ComponentArray V) (e : Entity) (v : V) :
    owners (add a e v) = owners a ++ [e] := by
  simp [owners, add]

theorem get_add (a : ComponentArray V) (e e2 : Entity) (v : V) (h : has a e = false) :
    get (add a e v) e2 = if e2 = e then some v else get a e2 := by
  unfold has at h
  unfold add
  induction a with
  | nil =>
    by_cases h2 : e2 = e
    · simp [get, h2]
    · have h3 : ¬ e = e2 := fun h4 => h2 h4.symm
      simp [get, h2, h3]
  | cons p a ih =>
    by_cases hp : p.1 = e
    · simp [get, hp] at h
    · simp only [get, hp, beq_iff_eq, if_false] at h
      by_cases hp2 : p.1 = e2
      · have h4 : ¬ e2 = e := fun h3 => hp (hp2.trans h3)
        simp only [List.cons_append, get, hp2, beq_self_eq_true, if_true, h4, if_false]
      · simp only [List.cons_append, get, hp2, beq_iff_eq, if_false]
        exact ih h

theorem has_add (a : ComponentArray V) (e e2 : Entity) (v : V) :
    has (add a e v) e2 = (has a e2 || decide (e2 = e)) := by
  rw [Bool.eq_iff_iff]
  simp [has_iff_mem_owners, owners_add]

theorem owners_write (a : ComponentArray V) (e : Entity) (v : V) :
    owners (write a e v) = owners a := by
  unfold owners
  induction a with
  | nil => rfl
  | cons p a ih =>
    by_cases hp : p.1 = e
    · simp [write, hp]
    · simp [write, hp, ih]

theorem has_write (a : ComponentArray V) (e e2 : Entity) (v : V) :
    has (write a e v) e2 = has a e2 := by
  rw [Bool.eq_iff_iff]
  simp [has_iff_mem_owners, owners_write]

/-- swap removal keeps exactly the cells of the other entities -/
theorem mem_remove (a : ComponentArray V) (e : Entity) (hn : (owners a).Nodup)
    (x : Entity × V) : x ∈ remove a e ↔ x ∈ a ∧ x.1 ≠ e := by
  unfold owners at hn
  induction a with
  | nil => simp [remove]
  | cons p a ih =>
    simp only [List.map_cons, List.nodup_cons] at hn
    by_cases hp : p.1 = e
    · have hrest : ∀ y ∈ a, y.1 ≠ e := by
        intro y hy hye
        apply hn.1; rw [hp, ← hye]; exact List.mem_map.mpr ⟨y, hy, rfl⟩
      simp only [remove, hp, beq_self_eq_true, if_true, List.mem_cons]
      cases hl : a.getLast? with
      | none =>
        have : a = [] := by simpa using hl
        subst this
        simp only [List.not_mem_nil, or_false, false_iff, not_and, not_not]
        intro hx; rw [hx]; exact hp
      | some last =>
        have hsplit : a = a.dropLast ++ [last] := by
          have hne : a ≠ [] := by intro h; rw [h] at hl; simp at hl
          rw [List.getLast?_eq_getLast _ hne] at hl
          simp only [Option.some.injEq] at hl
          rw [← hl]; exact (List.dropLast_append_getLast hne).symm
        have hmem : x ∈ a ↔ x = last ∨ x ∈ a.dropLast := by
          conv_lhs => rw [hsplit]
          simp [or_comm]
        simp only [List.mem_cons]
        constructor
        · intro h
          have hxa : x ∈ a := hmem.mpr h
          exact ⟨Or.inr hxa, hrest x hxa⟩
        · rintro ⟨h | h, hne⟩
          · exfalso; apply hne; rw [h]; exact hp
          · exact hmem.mp h
    · simp only [remove, hp, beq_iff_eq, if_false, List.mem_cons, ih hn.2]
      constructor
      · rintro (h | ⟨h, hne⟩)
        · exact ⟨Or.inl h, by rw [h]; exact hp⟩
        · exact ⟨Or.inr h, hne⟩
      · rintro ⟨h | h, hne⟩
        · exact Or.inl h
        · exact Or.inr ⟨h, hne⟩

theorem owners_remove_nodup (a : ComponentArray V) (e : Entity) (hn : (owners a).Nodup) :
    (owners (remove a e)).Nodup := by
  unfold owners at *
  induction a with
  | nil => simp [remove]
  | cons p a ih =>
    simp only [List.map_cons, List.nodup_cons] at hn
    by_cases hp : p.1 = e
    · simp only [remove, hp, beq_self_eq_true, if_true]
      cases hl : a.getLast? with
      | none => simp
      | some last =>
        have hne : a ≠ [] := by intro h; rw [h] at hl; simp at hl
        rw [List.getLast?_eq_getLast _ hne] at hl
        simp only [Option.some.injEq] at hl
        have hsplit : a = a.dropLast ++ [last] := by
          rw [← hl]; exact (List.dropLast_append_getLast hne).symm
        have hperm : (last :: a.dropLast).Perm a := by
          conv_rhs => rw [hsplit]
          exact (List.perm_append_singleton last a.dropLast).symm
        exact (hperm.map Prod.fst).nodup_iff.mpr hn.2
    · simp only [remove, hp, beq_iff_eq, if_false, List.map_cons, List.nodup_cons]
      refine ⟨?_, ih hn.2⟩
      intro hmem
      obtain ⟨y, hy, hy1⟩ := List.mem_map.mp hmem
      have := (mem_remove a e (by unfold owners; exact hn.2) y).mp hy
      apply hn.1; rw [← hy1]; exact List.mem_map.mpr ⟨y, this.1, rfl⟩

theorem has_remove (a : ComponentArray V) (e e2 : Entity) (hn : (owners a).Nodup) :
    has (remove a e) e2 = (has a e2 && !decide (e2 = e)) := by
  rw [Bool.eq_iff_iff]
  simp only [has_iff_mem_owners, owners, List.mem_map, Bool.and_eq_true, Bool.not_eq_true',
    decide_eq_false_iff_not]
  constructor
  · rintro ⟨y, hy, rfl⟩
    have := (mem_remove a e hn y).mp hy
    exact ⟨⟨y, this.1, rfl⟩, this.2⟩
  · rintro ⟨⟨y, hy, rfl⟩, hne⟩
    exact ⟨y, (mem_remove a e hn y).mpr ⟨hy, hne⟩, rfl⟩

theorem get_remove (a : ComponentArray V) (e e2 : Entity) (hn : (owners a).Nodup) :
    get (remove a e) e2 = if e2 = e then none else get a e2 := by
  by_cases h : e2 = e
  · simp only [h, if_true]
    have := has_remove a e e hn
    simp only [decide_True, Bool.not_true, Bool.and_false] at this
    unfold has at this
    cases hg : get (remove a e) e with
    | none => rfl
    | some v => rw [hg] at this; simp at this
  · simp only [h, if_false]
    apply get_ext _ _ (owners_remove_nodup a e hn) hn
    intro v
    rw [mem_remove a e hn]
    simp [h]

end ComponentArray

namespace EntityManager

theorem WF_init : EntityManager.init.WF :=
  { pool_nodup := List.nodup_nil
    pool_dead := by intro e he; simp [init] at he
    pool_lt := by intro e he; simp [init] at he
    live_lt := by intro e he; simp [init] at he }

/-- What `createEntity` does: it fails and changes nothing, or it issues an identity that
was not live. -/
theorem createEntity_cases (MAX_ENTITIES : Nat) (em : EntityManager) (h : em.WF) :
    (MAX_ENTITIES ≤ em.live.card ∧ em.createEntity MAX_ENTITIES = (.error .capacityExceeded, em)) ∨
    (em.live.card < MAX_ENTITIES ∧
      ∃ id em2, em.createEntity MAX_ENTITIES = (.ok id, em2) ∧ id ∉ em.live ∧
        em2.live = insert id em.live ∧
        (∀ e, em2.signatures e = if e = id then 0 else em.signatures e) ∧ em2.WF) := by
  unfold createEntity
  by_cases hc : MAX_ENTITIES ≤ em.live.card
  · left; simp [hc]
  · right
    refine ⟨by omega, ?_⟩
    simp only [hc, if_false]
    cases hp : em.pool with
    | nil =>
      have hnl : em.next ∉ em.live := fun hm => Nat.lt_irrefl _ (h.live_lt _ hm)
      refine ⟨_, _, rfl, hnl, rfl, fun e => rfl, ?_⟩
      exact
        { pool_nodup := by simp [hp]
          pool_dead := by intro e he; simp [hp] at he
          pool_lt := by intro e he; simp [hp] at he
          live_lt := by
            intro e he
            simp only [Finset.mem_insert] at he
            rcases he with he | he
            · simp [he]
            · exact Nat.lt_succ_of_lt (h.live_lt e he) }
    | cons id rest =>
      have hid : id ∈ em.pool := by rw [hp]; exact List.mem_cons_self _ _
      have hnd := h.pool_nodup
      rw [hp, List.nodup_cons] at hnd
      refine ⟨_, _, rfl, h.pool_dead id hid, rfl, fun e => rfl, ?_⟩
      exact
        { pool_nodup := hnd.2
          pool_dead := by
            intro e he
            have he2 : e ∈ em.pool := by rw [hp]; exact List.mem_cons_of_mem _ he
            simp only [Finset.mem_insert, not_or]
            exact ⟨fun heq => hnd.1 (heq ▸ he), h.pool_dead e he2⟩
          pool_lt := by
            intro e he
            exact h.pool_lt e (by rw [hp]; exact List.mem_cons_of_mem _ he)
          live_lt := by
            intro e he
            simp only [Finset.mem_insert] at he
            rcases he with he | he
            · rw [he]; exact h.pool_lt id hid
            · exact h.live_lt e he }

theorem destroyEntity_WF (em : EntityManager) (entity : Entity) (h : em.WF) :
    (em.destroyEntity entity).2.WF := by
  unfold destroyEntity
  by_cases hl : entity ∈ em.live
  · simp only [hl, if_true]
    exact
      { pool_nodup := by
          rw [List.nodup_append]
          refine ⟨h.pool_nodup, List.nodup_singleton _, ?_⟩
          intro a ha hb
          simp only [List.mem_singleton] at hb
          exact h.pool_dead a ha (hb ▸ hl)
        pool_dead := by
          intro e he
          simp only [List.mem_append, List.mem_singleton] at he
          simp only [Finset.mem_erase, not_and]
          rcases he with he | he
          · intro _; exact h.pool_dead e he
          · intro hne; exact absurd he hne
        pool_lt := by
          intro e he
          simp only [List.mem_append, List.mem_singleton] at he
          rcases he with he | he
          · exact h.pool_lt e he
          · rw [he]; exact h.live_lt _ hl
        live_lt := by
          intro e he
          exact h.live_lt e (Finset.mem_of_mem_erase he) }
  · simp only [hl, if_false]; exact h

end EntityManager

namespace Consistent

theorem congr {c c2 : Coordinator V} (h : Consistent c)
    (h1 : c2.entity_manager = c.entity_manager) (h2 : c2.component_manager = c.component_manager) :
    Consistent c2 :=
  { alloc := by rw [h1]; exact h.alloc
    types_nodup := by rw [h2]; exact h.types_nodup
    owners_nodup := by rw [h2]; exact h.owners_nodup
    unregistered := by rw [h2]; exact h.unregistered
    live_sync := by rw [h1, h2]; exact h.live_sync
    dead_clean := by rw [h1, h2]; exact h.dead_clean }

theorem at_init : Consistent (world0 V) :=
  { alloc := EntityManager.WF_init
    types_nodup := List.nodup_nil
    owners_nodup := by intro t; exact List.nodup_nil
    unregistered := by intro t _; rfl
    live_sync := by intro e he; simp [world0, Coordinator.init, EntityManager.init] at he
    dead_clean := by intro e _ t; rfl }

/-- Issuing an identity keeps the world consistent, whatever happens to the directory. -/
theorem allocate {c : Coordinator V} (h : Consistent c) (MAX_ENTITIES : Nat)
    (f : Entity → List (String × Entity)) :
    Consistent (match c.entity_manager.createEntity MAX_ENTITIES with
      | (.ok id, em) => { c with entity_manager := em, entities := f id }
      | (.error _, em) => { c with entity_manager := em }) := by
  rcases EntityManager.createEntity_cases MAX_ENTITIES c.entity_manager h.alloc with
    ⟨_, hf⟩ | ⟨_, id, em2, hs, hid, hlive, hsig, hwf⟩
  · rw [hf]; exact h.congr rfl rfl
  · rw [hs]
    exact
      { alloc := hwf
        types_nodup := h.types_nodup
        owners_nodup := h.owners_nodup
        unregistered := h.unregistered
        live_sync := by
          intro e he t
          show Signature.test (em2.signatures e) t = _
          rw [hsig]
          have he2 : e ∈ insert id c.entity_manager.live := hlive ▸ he
          by_cases heq : e = id
          · rw [if_pos heq, Signature.test_zero, heq]
            exact (h.dead_clean id hid t).symm
          · rw [if_neg heq]
            exact h.live_sync e (Finset.mem_of_mem_insert_of_ne he2 heq) t
        dead_clean := by
          intro e he t
          apply h.dead_clean e _ t
          intro hl
          apply he
          show e ∈ em2.live
          rw [hlive]; exact Finset.mem_insert_of_mem hl }

theorem after_createEntity {c : Coordinator V} (h : Consistent c) (MAX_ENTITIES : Nat)
    (generated : String) : Consistent (c.createEntity MAX_ENTITIES generated).2 := by
  have := h.allocate MAX_ENTITIES (fun id => Dict.assign c.entities (createKey id generated) id)
  unfold Coordinator.createEntity
  cases hc : c.entity_manager.createEntity MAX_ENTITIES with
  | mk r em =>
    rw [hc] at this
    cases r <;> exact this

theorem after_createEntityNamed {c : Coordinator V} (h : Consistent c) (MAX_ENTITIES : Nat)
    (key : String) : Consistent (c.createEntityNamed MAX_ENTITIES key).2 := by
  unfold Coordinator.createEntityNamed
  cases hf : Dict.find c.entities key with
  | some id => exact h
  | none =>
    have := h.allocate MAX_ENTITIES (fun id => Dict.assign c.entities key id)
    cases hc : c.entity_manager.createEntity MAX_ENTITIES with
    | mk r em =>
      rw [hc] at this
      cases r <;> exact this

end Consistent

namespace ComponentManager

theorem getComponentType_lt (cm : ComponentManager V) (T : TypeName) (t : ComponentType)
    (h : cm.getComponentType T = .ok t) : t < cm.componentTypes.length ∧ T ∈ cm.componentTypes
      ∧ t = cm.componentTypes.indexOf T := by
  unfold getComponentType at h
  by_cases hm : T ∈ cm.componentTypes
  · simp only [hm, if_true, Except.ok.injEq] at h
    exact ⟨by rw [← h]; exact List.indexOf_lt_length.mpr hm, hm, h.symm⟩
  · simp [hm] at h

theorem hasComponent_eq (cm : ComponentManager V) (T : TypeName) (t : ComponentType)
    (h : cm.getComponentType T = .ok t) (e : Entity) :
    cm.hasComponent T e = (cm.componentArrays t).has e := by
  unfold hasComponent; rw [h]

end ComponentManager

namespace Consistent

theorem after_destroyEntity {c : Coordinator V} (h : Consistent c) (entity : Entity) :
    Consistent (c.destroyEntity entity).2 := by
  unfold Coordinator.destroyEntity
  have hwf := EntityManager.destroyEntity_WF c.entity_manager entity h.alloc
  unfold EntityManager.destroyEntity at hwf ⊢
  by_cases hl : entity ∈ c.entity_manager.live
  · simp only [hl, if_true] at hwf ⊢
    exact
      { alloc := hwf
        types_nodup := h.types_nodup
        owners_nodup := by
          intro t
          show (ComponentArray.owners (if _ then _ else _)).Nodup
          split
          · exact ComponentArray.owners_remove_nodup _ _ (h.owners_nodup t)
          · exact h.owners_nodup t
        unregistered := by
          intro t ht
          show (if _ then _ else _) = []
          have ht2 : c.component_manager.componentTypes.length ≤ t := ht
          have : ¬ t < c.component_manager.componentTypes.length := Nat.not_lt.mpr ht2
          simp only [this, false_and, if_false]
          exact h.unregistered t ht2
        live_sync := by
          intro e he t
          have he2 : e ∈ c.entity_manager.live.erase entity := he
          have hne : e ≠ entity := Finset.ne_of_mem_erase he2
          have hlive : e ∈ c.entity_manager.live := Finset.mem_of_mem_erase he2
          show Signature.test (c.entity_manager.signatures e) t
            = ComponentArray.has (if _ then _ else _) e
          rw [h.live_sync e hlive t]
          split
          · rw [ComponentArray.has_remove _ _ _ (h.owners_nodup t)]
            simp [hne]
          · rfl
        dead_clean := by
          intro e he t
          have he2 : e ∉ c.entity_manager.live.erase entity := he
          show ComponentArray.has (if _ then _ else _) e = false
          by_cases heq : e = entity
          · subst heq
            split
            · rw [ComponentArray.has_remove _ _ _ (h.owners_nodup t)]; simp
            · rename_i hcond
              by_cases hh : (c.component_manager.componentArrays t).has e = true
              · have hge : c.component_manager.componentTypes.length ≤ t := by
                  by_contra hlt
                  exact hcond ⟨Nat.lt_of_not_le hlt, hh⟩
                rw [h.unregistered t hge]; rfl
              · simpa using hh
          · have hdead : e ∉ c.entity_manager.live := by
              intro hm; exact he2 (Finset.mem_erase.mpr ⟨heq, hm⟩)
            split
            · rw [ComponentArray.has_remove _ _ _ (h.owners_nodup t), h.dead_clean e hdead t]
              rfl
            · exact h.dead_clean e hdead t }
  · simp only [hl, if_false]
    exact h.congr rfl rfl

theorem after_destroyEntityNamed {c : Coordinator V} (h : Consistent c) (key : String) :
    Consistent (c.destroyEntityNamed key).2 := by
  unfold Coordinator.destroyEntityNamed
  cases Dict.find c.entities key with
  | some id => exact h.after_destroyEntity id
  | none => exact h

theorem after_registerComponent {c : Coordinator V} (h : Consistent c) (MAX_COMPONENTS : Nat)
    (T : TypeName) : Consistent (c.registerComponent MAX_COMPONENTS T).2 := by
  unfold Coordinator.registerComponent ComponentManager.registerComponent
  by_cases hm : T ∈ c.component_manager.componentTypes
  · simp only [hm, if_true]; exact h.congr rfl rfl
  · simp only [hm, if_false]
    by_cases hcap : MAX_COMPONENTS ≤ c.component_manager.componentTypes.length
    · simp only [hcap, if_true]; exact h.congr rfl rfl
    · simp only [hcap, if_false]
      exact
        { alloc := h.alloc
          types_nodup := by
            show (c.component_manager.componentTypes ++ [T]).Nodup
            rw [List.nodup_append]
            refine ⟨h.types_nodup, List.nodup_singleton _, ?_⟩
            intro a ha hb
            simp only [List.mem_singleton] at hb
            exact hm (hb ▸ ha)
          owners_nodup := by
            intro t
            show (ComponentArray.owners (if _ then _ else _)).Nodup
            split
            · exact List.nodup_nil
            · exact h.owners_nodup t
          unregistered := by
            intro t ht
            have ht2 : (c.component_manager.componentTypes ++ [T]).length ≤ t := ht
            rw [List.length_append] at ht2
            simp only [List.length_singleton] at ht2
            show (if _ then _ else _) = []
            split
            · rfl
            · exact h.unregistered t (by omega)
          live_sync := by
            intro e he t
            show Signature.test (c.entity_manager.signatures e) t
              = ComponentArray.has (if _ then _ else _) e
            rw [h.live_sync e he t]
            split
            · rename_i heq
              rw [h.unregistered t (le_of_eq heq.symm)]
            · rfl
          dead_clean := by
            intro e he t
            show ComponentArray.has (if _ then _ else _) e = false
            split
            · rfl
            · exact h.dead_clean e he t }

end Consistent

/-- The two ways `addComponent` can go: nothing changes, or the component is stored, the
signature bit set and the systems told. -/
theorem addComponent_cases (c : Coordinator V) (T : TypeName) (e : Entity) (v : V) :
    (c.component_manager.hasComponent T e = true ∧ c.addComponent T e v = (.ok (), c)) ∨
    (∃ err, c.component_manager.getComponentType T = .error err ∧
      c.addComponent T e v = (.error err, c)) ∨
    ∃ t c2, c.component_manager.getComponentType T = .ok t ∧
      (c.component_manager.componentArrays t).has e = false ∧
      c.addComponent T e v = (.ok (), c2) ∧
      c2.component_manager.componentTypes = c.component_manager.componentTypes ∧
      (∀ i, c2.component_manager.componentArrays i =
        if i = t then (c.component_manager.componentArrays t).add e v
        else c.component_manager.componentArrays i) ∧
      c2.entity_manager = c.entity_manager.setSignature e
        (Signature.set (c.entity_manager.getSignature e) t true) ∧
      c2.system_manager = c.system_manager.entitySignatureChanged e
        (Signature.set (c.entity_manager.getSignature e) t true) ∧
      c2.entities = c.entities ∧ c2.snapshot = c.snapshot := by
  unfold Coordinator.addComponent
  by_cases hh : c.component_manager.hasComponent T e = true
  · left; exact ⟨hh, by simp [hh]⟩
  · simp only [hh, if_false]
    cases ht : c.component_manager.getComponentType T with
    | error err =>
      right; left
      exact ⟨err, rfl, by simp [ComponentManager.addComponent, ht]⟩
    | ok t =>
      have hhas : (c.component_manager.componentArrays t).has e = false := by
        rw [ComponentManager.hasComponent_eq _ _ _ ht] at hh
        simpa using hh
      right; right
      have ht2 : ComponentManager.getComponentType
          ({ c.component_manager with
             componentArrays := fun i =>
                if i = t then (c.component_manager.componentArrays t).add e v
                else c.component_manager.componentArrays i } : ComponentManager V) T = .ok t := ht
      refine ⟨t, ({ c with
          component_manager :=
            { c.component_manager with
              componentArrays := fun i =>
                if i = t then (c.component_manager.componentArrays t).add e v
                else c.component_manager.componentArrays i },
          entity_manager := c.entity_manager.setSignature e
            (Signature.set (c.entity_manager.getSignature e) t true),
          system_manager := c.system_manager.entitySignatureChanged e
            (Signature.set (c.entity_manager.getSignature e) t true) } : Coordinator V),
        rfl, hhas, ?_, rfl, fun i => rfl, rfl, rfl, rfl, rfl⟩
      simp only [ComponentManager.addComponent, ht, hhas, Bool.false_eq_true, if_false, ht2]

/-- The two ways `removeComponent` can go: it reports an error and nothing changes, or the
component is removed, the signature bit cleared and the systems told. -/
theorem removeComponent_cases (c : Coordinator V) (T : TypeName) (e : Entity) :
    (c.component_manager.hasComponent T e = false ∧
      ∃ err, c.removeComponent T e = (.error err, c)) ∨
    ∃ t c2, c.component_manager.getComponentType T = .ok t ∧
      (c.component_manager.componentArrays t).has e = true ∧
      c.removeComponent T e = (.ok (), c2) ∧
      c2.component_manager.componentTypes = c.component_manager.componentTypes ∧
      (∀ i, c2.component_manager.componentArrays i =
        if i = t then (c.component_manager.componentArrays t).remove e
        else c.component_manager.componentArrays i) ∧
      c2.entity_manager = c.entity_manager.setSignature e
        (Signature.set (c.entity_manager.getSignature e) t false) ∧
      c2.system_manager = c.system_manager.entitySignatureChanged e
        (Signature.set (c.entity_manager.getSignature e) t false) ∧
      c2.entities = c.entities ∧ c2.snapshot = c.snapshot := by
  unfold Coordinator.removeComponent
  cases ht : c.component_manager.getComponentType T with
  | error err =>
    left
    refine ⟨by simp [ComponentManager.hasComponent, ht], err, ?_⟩
    simp [ComponentManager.removeComponent, ht]
  | ok t =>
    by_cases hhas : (c.component_manager.componentArrays t).has e = true
    · right
      have ht2 : ComponentManager.getComponentType
          ({ c.component_manager with
             componentArrays := fun i =>
                if i = t then (c.component_manager.componentArrays t).remove e
                else c.component_manager.componentArrays i } : ComponentManager V) T = .ok t := ht
      refine ⟨t, ({ c with
          component_manager :=
            { c.component_manager with
              componentArrays := fun i =>
                if i = t then (c.component_manager.componentArrays t).remove e
                else c.component_manager.componentArrays i },
          entity_manager := c.entity_manager.setSignature e
            (Signature.set (c.entity_manager.getSignature e) t false),
          system_manager := c.system_manager.entitySignatureChanged e
            (Signature.set (c.entity_manager.getSignature e) t false) } : Coordinator V),
        rfl, hhas, ?_, rfl, fun i => rfl, rfl, rfl, rfl, rfl⟩
      simp only [ComponentManager.removeComponent, ht, hhas, if_true, ht2]
    · left
      refine ⟨by rw [ComponentManager.hasComponent_eq _ _ _ ht]; simpa using hhas,
        .notFound, ?_⟩
      simp [ComponentManager.removeComponent, ht, hhas]

/-- The two ways a write through a component reference can go. -/
theorem writeComponent_cases (c : Coordinator V) (T : TypeName) (e : Entity) (v : V) :
    (c.component_manager.hasComponent T e = false ∧
      ∃ err, c.writeComponent T e v = (.error err, c)) ∨
    ∃ t c2, c.component_manager.getComponentType T = .ok t ∧
      (c.component_manager.componentArrays t).has e = true ∧
      c.writeComponent T e v = (.ok (), c2) ∧
      c2.component_manager.componentTypes = c.component_manager.componentTypes ∧
      (∀ i, c2.component_manager.componentArrays i =
        if i = t then (c.component_manager.componentArrays t).write e v
        else c.component_manager.componentArrays i) ∧
      c2.entity_manager = c.entity_manager ∧ c2.system_manager = c.system_manager ∧
      c2.entities = c.entities ∧ c2.snapshot = c.snapshot := by
  unfold Coordinator.writeComponent ComponentManager.writeComponent
  cases ht : c.component_manager.getComponentType T with
  | error err => left; exact ⟨by simp [ComponentManager.hasComponent, ht], err, rfl⟩
  | ok t =>
    by_cases hhas : (c.component_manager.componentArrays t).has e = true
    · right
      exact ⟨t, ({ c with
          component_manager :=
            { c.component_manager with
              componentArrays := fun i =>
                if i = t then (c.component_manager.componentArrays t).write e v
                else c.component_manager.componentArrays i } } : Coordinator V),
        rfl, hhas, by simp [hhas], rfl, fun i => rfl, rfl, rfl, rfl, rfl⟩
    · left
      refine ⟨by rw [ComponentManager.hasComponent_eq _ _ _ ht]; simpa using hhas,
        .notFound, ?_⟩
      simp [hhas]

namespace Consistent

/-- Consistency only looks at the stores, the live set and the signatures. -/
theorem of_parts {c c2 : Coordinator V} (h : Consistent c)
    (hwf : c2.entity_manager.WF)
    (htypes : c2.component_manager.componentTypes = c.component_manager.componentTypes)
    (hown : ∀ t, (c2.component_manager.componentArrays t).owners.Nodup)
    (hunreg : ∀ t, c.component_manager.componentTypes.length ≤ t →
      c2.component_manager.componentArrays t = [])
    (hsync : ∀ e ∈ c2.entity_manager.live, ∀ t,
      Signature.test (c2.entity_manager.signatures e) t
        = (c2.component_manager.componentArrays t).has e)
    (hdead : ∀ e, e ∉ c2.entity_manager.live → ∀ t,
      (c2.component_manager.componentArrays t).has e = false) : Consistent c2 :=
  { alloc := hwf
    types_nodup := by rw [htypes]; exact h.types_nodup
    owners_nodup := hown
    unregistered := by rw [htypes]; exact hunreg
    live_sync := hsync
    dead_clean := hdead }

theorem after_addComponent {c : Coordinator V} (h : Consistent c) (T : TypeName) (e : Entity)
    (v : V) (he : e ∈ c.entity_manager.live) : Consistent (c.addComponent T e v).2 := by
  rcases addComponent_cases c T e v with ⟨_, hsame⟩ | ⟨err, _, hsame⟩ |
    ⟨t, c2, ht, hhas, hres, htypes, harr, hem, _, _, _⟩
  · rw [hsame]; exact h
  · rw [hsame]; exact h
  · rw [hres]
    have htlt := (ComponentManager.getComponentType_lt _ _ _ ht).1
    apply h.of_parts _ htypes
    · intro i
      rw [harr]
      split
      · rw [ComponentArray.owners_add, List.nodup_append]
        refine ⟨h.owners_nodup t, List.nodup_singleton _, ?_⟩
        intro a ha hb
        simp only [List.mem_singleton] at hb
        rw [ComponentArray.has_eq_false_iff] at hhas
        exact hhas (hb ▸ ha)
      · exact h.owners_nodup i
    · intro i hi
      have : ¬ i = t := fun hh => Nat.lt_irrefl _ (Nat.lt_of_lt_of_le htlt (hh ▸ hi))
      rw [harr, if_neg this]
      exact h.unregistered i hi
    · intro e2 he2 i
      rw [hem] at he2 ⊢
      have he3 : e2 ∈ c.entity_manager.live := he2
      rw [harr]
      show Signature.test (if e2 = e then _ else c.entity_manager.signatures e2) i = _
      by_cases hee : e2 = e
      · subst hee
        simp only [if_true, Signature.test_set_true, EntityManager.getSignature]
        rw [h.live_sync e2 he3 i]
        by_cases hit : i = t
        · subst hit
          simp [ComponentArray.has_add]
        · have : ¬ t = i := fun hh => hit hh.symm
          simp [hit, this]
      · simp only [hee, if_false]
        rw [h.live_sync e2 he3 i]
        split
        · rename_i hit
          rw [ComponentArray.has_add, hit]; simp [hee]
        · rfl
    · intro e2 he2 i
      rw [hem] at he2
      have he3 : e2 ∉ c.entity_manager.live := he2
      have hne : e2 ≠ e := fun hh => he3 (hh ▸ he)
      rw [harr]
      split
      · rw [ComponentArray.has_add, h.dead_clean e2 he3 t]; simp [hne]
      · exact h.dead_clean e2 he3 i
    · rw [hem]
      exact ⟨h.alloc.pool_nodup, h.alloc.pool_dead, h.alloc.pool_lt, h.alloc.live_lt⟩

theorem after_removeComponent {c : Coordinator V} (h : Consistent c) (T : TypeName)
    (e : Entity) : Consistent (c.removeComponent T e).2 := by
  rcases removeComponent_cases c T e with ⟨_, err, hres⟩ |
    ⟨t, c2, ht, hhas, hres, htypes, harr, hem, _, _, _⟩
  · rw [hres]; exact h
  · rw [hres]
    have htlt := (ComponentManager.getComponentType_lt _ _ _ ht).1
    apply h.of_parts _ htypes
    · intro i
      rw [harr]
      split
      · exact ComponentArray.owners_remove_nodup _ _ (h.owners_nodup t)
      · exact h.owners_nodup i
    · intro i hi
      have : ¬ i = t := fun hh => Nat.lt_irrefl _ (Nat.lt_of_lt_of_le htlt (hh ▸ hi))
      rw [harr, if_neg this]
      exact h.unregistered i hi
    · intro e2 he2 i
      rw [hem] at he2 ⊢
      have he3 : e2 ∈ c.entity_manager.live := he2
      rw [harr]
      show Signature.test (if e2 = e then _ else c.entity_manager.signatures e2) i = _
      by_cases hee : e2 = e
      · subst hee
        simp only [if_true, Signature.test_set_false, EntityManager.getSignature]
        rw [h.live_sync e2 he3 i]
        by_cases hit : i = t
        · subst hit
          simp [ComponentArray.has_remove _ _ _ (h.owners_nodup i)]
        · have : ¬ t = i := fun hh => hit hh.symm
          simp [hit, this]
      · simp only [hee, if_false]
        rw [h.live_sync e2 he3 i]
        split
        · rename_i hit
          rw [ComponentArray.has_remove _ _ _ (h.owners_nodup t), hit]; simp [hee]
        · rfl
    · intro e2 he2 i
      rw [hem] at he2
      have he3 : e2 ∉ c.entity_manager.live := he2
      rw [harr]
      split
      · rw [ComponentArray.has_remove _ _ _ (h.owners_nodup t), h.dead_clean e2 he3 t]
        rfl
      · exact h.dead_clean e2 he3 i
    · rw [hem]
      exact ⟨h.alloc.pool_nodup, h.alloc.pool_dead, h.alloc.pool_lt, h.alloc.live_lt⟩

theorem after_writeComponent {c : Coordinator V} (h : Consistent c) (T : TypeName)
    (e : Entity) (v : V) : Consistent (c.writeComponent T e v).2 := by
  rcases writeComponent_cases c T e v with ⟨_, _, hsame⟩ |
    ⟨t, c2, ht, hhas, hres, htypes, harr, hem, _, _, _⟩
  · rw [hsame]; exact h
  · rw [hres]
    have htlt := (ComponentManager.getComponentType_lt _ _ _ ht).1
    apply h.of_parts _ htypes
    · intro i
      rw [harr]
      split
      · rw [ComponentArray.owners_write]; exact h.owners_nodup t
      · exact h.owners_nodup i
    · intro i hi
      have : ¬ i = t := fun hh => Nat.lt_irrefl _ (Nat.lt_of_lt_of_le htlt (hh ▸ hi))
      rw [harr, if_neg this]
      exact h.unregistered i hi
    · intro e2 he2 i
      rw [hem] at he2 ⊢
      rw [harr, h.live_sync e2 he2 i]
      split
      · rename_i hit
        rw [ComponentArray.has_write, hit]
      · rfl
    · intro e2 he2 i
      rw [hem] at he2
      rw [harr]
      split
      · rw [ComponentArray.has_write]; exact h.dead_clean e2 he2 t
      · exact h.dead_clean e2 he2 i
    · rw [hem]; exact h.alloc

end Consistent

theorem backup_frame (c : Coordinator V) (ser : StateSerializer V) :
    (c.backup ser).component_manager = c.component_manager ∧
    (c.backup ser).entity_manager = c.entity_manager ∧
    (c.backup ser).system_manager = c.system_manager ∧
    (c.backup ser).entities = c.entities := by
  have key : ∀ (l : List (String × Entity)) (acc : Coordinator V),
      ∃ recs, l.foldl (fun acc p =>
        { acc with snapshot := acc.snapshot ++ [createSnapshot acc p.2 p.1 ser] }) acc
        = { acc with snapshot := recs } := by
    intro l
    induction l with
    | nil => intro acc; exact ⟨acc.snapshot, rfl⟩
    | cons p l ih =>
      intro acc
      obtain ⟨recs, h⟩ := ih { acc with snapshot := acc.snapshot ++ [createSnapshot acc p.2 p.1 ser] }
      exact ⟨recs, by rw [List.foldl_cons, h]⟩
  obtain ⟨recs, h⟩ := key c.entities { c with snapshot := [] }
  unfold backup
  rw [h]
  exact ⟨rfl, rfl, rfl, rfl⟩

/-- Consistency survives every admissible call. -/
theorem Consistent.after_step {c : Coordinator V} (h : Consistent c)
    (MAX_ENTITIES MAX_COMPONENTS : Nat) (op : Op V) (hop : op.admissible c = true) :
    Consistent (step MAX_ENTITIES MAX_COMPONENTS c op) := by
  cases op with
  | createEntity generated => exact h.after_createEntity _ _
  | createEntityNamed key => exact h.after_createEntityNamed _ _
  | destroyEntity entity => exact h.after_destroyEntity _
  | destroyEntityNamed key => exact h.after_destroyEntityNamed _
  | registerComponent T => exact h.after_registerComponent _ _
  | addComponent T entity component =>
    exact h.after_addComponent _ _ _ (by simpa [Op.admissible] using hop)
  | removeComponent T entity => exact h.after_removeComponent _ _
  | writeComponent T entity value => exact h.after_writeComponent _ _ _
  | registerSystem T => exact h.congr rfl rfl
  | setSystemSignature T signature => exact h.congr rfl rfl
  | backup serializer =>
    exact h.congr (backup_frame c serializer).2.1 (backup_frame c serializer).1
  | restore deserializer => simp [Op.admissible] at hop

theorem Consistent.after_run (MAX_ENTITIES MAX_COMPONENTS : Nat) (ops : List (Op V)) :
    ∀ (c : Coordinator V), Consistent c →
      admissibleFrom MAX_ENTITIES MAX_COMPONENTS c ops = true →
      Consistent (run MAX_ENTITIES MAX_COMPONENTS c ops) := by
  induction ops with
  | nil => intro c h _; exact h
  | cons op ops ih =>
    intro c h hadm
    simp only [admissibleFrom, Bool.and_eq_true] at hadm
    exact ih _ (h.after_step _ _ op hadm.1) hadm.2

/-- C1 (amended): in every world reached from `init()` by calls in which `addComponent`
names a live entity, a live entity has a component of a registered type exactly when the
bit of that type's tag is set in its signature. -/
theorem hasComponent_iff_signature_bit (MAX_ENTITIES MAX_COMPONENTS : Nat) (ops : List (Op V))
    (hops : admissibleFrom MAX_ENTITIES MAX_COMPONENTS (world0 V) ops = true)
    (e : Entity) (T : TypeName) (t : ComponentType)
    (he : e ∈ (run MAX_ENTITIES MAX_COMPONENTS (world0 V) ops).entity_manager.live)
    (hT : (run MAX_ENTITIES MAX_COMPONENTS (world0 V) ops).getComponentType T = .ok t) :
    (run MAX_ENTITIES MAX_COMPONENTS (world0 V) ops).hasComponent T e = true ↔
      Signature.test
        ((run MAX_ENTITIES MAX_COMPONENTS (world0 V) ops).entity_manager.getSignature e) t
        = true := by
  have h := Consistent.after_run MAX_ENTITIES MAX_COMPONENTS ops (world0 V) Consistent.at_init hops
  unfold Coordinator.hasComponent
  rw [ComponentManager.hasComponent_eq _ _ _ hT]
  unfold EntityManager.getSignature
  rw [h.live_sync e he t]

theorem hasComponent_iff_signature_bit_witness :
    (admissibleFrom 8 8 (world0 Nat)
        [.registerComponent "Transform", .createEntityNamed "CHAR",
          .addComponent "Transform" 0 7] = true
      ∧ 0 ∈ (run 8 8 (world0 Nat) [.registerComponent "Transform", .createEntityNamed "CHAR",
          .addComponent "Transform" 0 7]).entity_manager.live
      ∧ (run 8 8 (world0 Nat) [.registerComponent "Transform", .createEntityNamed "CHAR",
          .addComponent "Transform" 0 7]).getComponentType "Transform" = .ok 0)
    ∧ ((run 8 8 (world0 Nat) [.registerComponent "Transform", .createEntityNamed "CHAR",
          .addComponent "Transform" 0 7]).hasComponent "Transform" 0 = true ↔
        Signature.test ((run 8 8 (world0 Nat) [.registerComponent "Transform",
          .createEntityNamed "CHAR",
          .addComponent "Transform" 0 7]).entity_manager.getSignature 0) 0 = true) :=
  ⟨⟨by decide, by decide, by decide⟩,
    hasComponent_iff_signature_bit 8 8 _ (by decide) 0 "Transform" 0 (by decide) (by decide)⟩

/-- C1 as stated fails: a component added to an identity that is not live yet survives the
creation of that identity, whose signature starts at zero. -/
theorem hasComponent_without_signature_bit :
    0 ∈ (run 8 8 (world0 Nat) [.registerComponent "Transform",
        .addComponent "Transform" 0 7, .createEntityNamed "CHAR"]).entity_manager.live
      ∧ (run 8 8 (world0 Nat) [.registerComponent "Transform",
        .addComponent "Transform" 0 7, .createEntityNamed "CHAR"]).getComponentType "Transform"
          = .ok 0
      ∧ (run 8 8 (world0 Nat) [.registerComponent "Transform",
        .addComponent "Transform" 0 7, .createEntityNamed "CHAR"]).hasComponent "Transform" 0
          = true
      ∧ Signature.test ((run 8 8 (world0 Nat) [.registerComponent "Transform",
        .addComponent "Transform" 0 7,
        .createEntityNamed "CHAR"]).entity_manager.getSignature 0) 0 = false := by
  decide

namespace SystemsTrack

theorem tracks_at_init : SystemsTrack (world0 V) := by
  intro r hr
  simp [world0, Coordinator.init, SystemManager.init] at hr

theorem tracks_congr {c c2 : Coordinator V} (h : SystemsTrack c)
    (h1 : c2.entity_manager = c.entity_manager) (h2 : c2.system_manager = c.system_manager) :
    SystemsTrack c2 := by
  unfold SystemsTrack at *
  rw [h1, h2]; exact h

/-- Issuing an identity leaves every tracked set right: the new entity has the zero
signature, which covers no non-empty requirement. -/
theorem allocate_tracks {c : Coordinator V} (h : SystemsTrack c) (hc : Consistent c)
    (MAX_ENTITIES : Nat) (f : Entity → List (String × Entity)) :
    SystemsTrack (match c.entity_manager.createEntity MAX_ENTITIES with
      | (.ok id, em) => { c with entity_manager := em, entities := f id }
      | (.error _, em) => { c with entity_manager := em }) := by
  rcases EntityManager.createEntity_cases MAX_ENTITIES c.entity_manager hc.alloc with
    ⟨_, hf⟩ | ⟨_, id, em2, hs, hid, hlive, hsig, hwf⟩
  · rw [hf]; exact h.tracks_congr rfl rfl
  · rw [hs]
    intro r hr
    have hr2 : r ∈ c.system_manager.systems := hr
    obtain ⟨hsub, hiff⟩ := h r hr2
    show (∀ e ∈ r.system.entities, e ∈ em2.live) ∧
      (r.signature ≠ 0 → ∀ e, e ∈ r.system.entities ↔
        (e ∈ em2.live ∧ Signature.covers (em2.signatures e) r.signature = true))
    rw [hlive]
    refine ⟨fun e he => Finset.mem_insert_of_mem (hsub e he), ?_⟩
    intro hR e
    rw [hsig]
    by_cases heq : e = id
    · subst heq
      simp only [if_true, Signature.covers_zero_left, decide_eq_true_eq, hR, and_false, iff_false]
      exact fun hm => hid (hsub e hm)
    · simp only [heq, if_false, Finset.mem_insert, false_or]
      exact hiff hR e

theorem tracks_createEntity {c : Coordinator V} (h : SystemsTrack c) (hc : Consistent c)
    (MAX_ENTITIES : Nat) (generated : String) :
    SystemsTrack (c.createEntity MAX_ENTITIES generated).2 := by
  have := h.allocate_tracks hc MAX_ENTITIES
    (fun id => Dict.assign c.entities (createKey id generated) id)
  unfold Coordinator.createEntity
  cases hcr : c.entity_manager.createEntity MAX_ENTITIES with
  | mk r em =>
    rw [hcr] at this
    cases r <;> exact this

theorem tracks_createEntityNamed {c : Coordinator V} (h : SystemsTrack c) (hc : Consistent c)
    (MAX_ENTITIES : Nat) (key : String) :
    SystemsTrack (c.createEntityNamed MAX_ENTITIES key).2 := by
  unfold Coordinator.createEntityNamed
  cases hf : Dict.find c.entities key with
  | some id => exact h
  | none =>
    have := h.allocate_tracks hc MAX_ENTITIES (fun id => Dict.assign c.entities key id)
    cases hcr : c.entity_manager.createEntity MAX_ENTITIES with
    | mk r em =>
      rw [hcr] at this
      cases r <;> exact this

theorem tracks_destroyEntity {c : Coordinator V} (h : SystemsTrack c) (entity : Entity) :
    SystemsTrack (c.destroyEntity entity).2 := by
  unfold Coordinator.destroyEntity EntityManager.destroyEntity
  by_cases hl : entity ∈ c.entity_manager.live
  · simp only [hl, if_true]
    intro r hr
    have hr2 : r ∈ (c.system_manager.entityDestroyed entity).systems := hr
    unfold SystemManager.entityDestroyed at hr2
    simp only [List.mem_map] at hr2
    obtain ⟨r0, hr0, rfl⟩ := hr2
    obtain ⟨hsub, hiff⟩ := h r0 hr0
    show (∀ e ∈ r0.system.entities.erase entity, e ∈ c.entity_manager.live.erase entity) ∧
      (r0.signature ≠ 0 → ∀ e, e ∈ r0.system.entities.erase entity ↔
        (e ∈ c.entity_manager.live.erase entity ∧
          Signature.covers (c.entity_manager.signatures e) r0.signature = true))
    constructor
    · intro e he
      rw [Finset.mem_erase] at he ⊢
      exact ⟨he.1, hsub e he.2⟩
    · intro hR e
      rw [Finset.mem_erase, Finset.mem_erase, hiff hR e]
      unfold EntityManager.getSignature
      tauto
  · simp only [hl, if_false]
    exact h.tracks_congr rfl rfl

theorem tracks_destroyEntityNamed {c : Coordinator V} (h : SystemsTrack c) (key : String) :
    SystemsTrack (c.destroyEntityNamed key).2 := by
  unfold Coordinator.destroyEntityNamed
  cases Dict.find c.entities key with
  | some id => exact h.tracks_destroyEntity id
  | none => exact h

/-- Telling the systems of a live entity's new signature keeps every tracked set right. -/
theorem tracks_signatureChanged {c c2 : Coordinator V} (h : SystemsTrack c) (e : Entity)
    (s : Signature) (he : e ∈ c.entity_manager.live)
    (hem : c2.entity_manager = c.entity_manager.setSignature e s)
    (hsm : c2.system_manager = c.system_manager.entitySignatureChanged e s) :
    SystemsTrack c2 := by
  intro r hr
  rw [hsm] at hr
  unfold SystemManager.entitySignatureChanged at hr
  simp only [List.mem_map] at hr
  obtain ⟨r0, hr0, hr⟩ := hr
  obtain ⟨hsub, hiff⟩ := h r0 hr0
  rw [hem]
  show (∀ e2 ∈ r.system.entities, e2 ∈ c.entity_manager.live) ∧
    (r.signature ≠ 0 → ∀ e2, e2 ∈ r.system.entities ↔
      (e2 ∈ c.entity_manager.live ∧
        Signature.covers (if e2 = e then s else c.entity_manager.signatures e2) r.signature
          = true))
  by_cases hcov : Signature.covers s r0.signature = true
  · simp only [hcov, if_true] at hr
    subst hr
    constructor
    · intro e2 he2
      have he3 : e2 ∈ insert e r0.system.entities := he2
      rcases Finset.mem_insert.mp he3 with h1 | h1
      · rw [h1]; exact he
      · exact hsub e2 h1
    · intro hR e2
      show e2 ∈ insert e r0.system.entities ↔ _
      by_cases hee : e2 = e
      · subst hee
        simp only [Finset.mem_insert, true_or, if_true, true_iff]
        exact ⟨he, hcov⟩
      · simp only [Finset.mem_insert, hee, false_or, if_false]
        exact hiff hR e2
  · simp only [hcov, Bool.false_eq_true, if_false] at hr
    subst hr
    constructor
    · intro e2 he2
      have he3 : e2 ∈ r0.system.entities.erase e := he2
      exact hsub e2 (Finset.mem_of_mem_erase he3)
    · intro hR e2
      show e2 ∈ r0.system.entities.erase e ↔ _
      by_cases hee : e2 = e
      · subst hee
        simp only [Finset.mem_erase, ne_eq, not_true_eq_false, false_and, if_true, false_iff,
          not_and]
        intro _; exact hcov
      · simp only [Finset.mem_erase, ne_eq, hee, not_false_eq_true, true_and, if_false]
        exact hiff hR e2

theorem tracks_addComponent {c : Coordinator V} (h : SystemsTrack c) (T : TypeName)
    (e : Entity) (v : V) (he : e ∈ c.entity_manager.live) :
    SystemsTrack (c.addComponent T e v).2 := by
  rcases addComponent_cases c T e v with ⟨_, hsame⟩ | ⟨err, _, hsame⟩ |
    ⟨t, c2, ht, hhas, hres, htypes, harr, hem, hsm, _, _⟩
  · rw [hsame]; exact h
  · rw [hsame]; exact h
  · rw [hres]; exact h.tracks_signatureChanged e _ he hem hsm

theorem tracks_removeComponent {c : Coordinator V} (h : SystemsTrack c) (hc : Consistent c)
    (T : TypeName) (e : Entity) : SystemsTrack (c.removeComponent T e).2 := by
  rcases removeComponent_cases c T e with ⟨_, err, hres⟩ |
    ⟨t, c2, ht, hhas, hres, htypes, harr, hem, hsm, _, _⟩
  · rw [hres]; exact h
  · rw [hres]
    have he : e ∈ c.entity_manager.live := by
      by_contra hd
      rw [hc.dead_clean e hd t] at hhas
      exact Bool.false_ne_true hhas
    exact h.tracks_signatureChanged e _ he hem hsm

theorem tracks_registerSystem {c : Coordinator V} (h : SystemsTrack c) (T : TypeName) :
    SystemsTrack (c.registerSystem T) := by
  unfold Coordinator.registerSystem SystemManager.registerSystem
  split
  · exact h.tracks_congr rfl rfl
  · intro r hr
    have hr2 : r ∈ c.system_manager.systems ++
        [{ name := T, signature := 0, system := { entities := ∅ } }] := hr
    rcases List.mem_append.mp hr2 with h1 | h1
    · exact h r h1
    · simp only [List.mem_singleton] at h1
      subst h1
      exact ⟨fun e he => absurd he (Finset.not_mem_empty e), fun hR => absurd rfl hR⟩

theorem tracks_setSystemSignature {c : Coordinator V} (h : SystemsTrack c)
    (hk : RegistryInSync c) (T : TypeName) (signature : Signature) :
    SystemsTrack (c.setSystemSignature T signature) := by
  intro r hr
  have hr2 : r ∈ (c.system_manager.setSignature T signature).systems := hr
  unfold SystemManager.setSignature at hr2
  simp only [List.mem_map] at hr2
  obtain ⟨r0, hr0, hr1⟩ := hr2
  show (∀ e ∈ r.system.entities, e ∈ c.entity_manager.live) ∧
    (r.signature ≠ 0 → ∀ e, e ∈ r.system.entities ↔
      (e ∈ c.entity_manager.live ∧
        Signature.covers (c.entity_manager.getSignature e) r.signature = true))
  by_cases hn : (r0.name == T) = true
  · simp only [hn, if_true] at hr1
    subst hr1
    constructor
    · intro e he
      have he2 : e ∈ c.system_manager.tracked.filter
          (fun e => Signature.covers (c.system_manager.signatures e) signature) := he
      exact hk.tracked_live e (Finset.mem_filter.mp he2).1
    · intro hR e
      show e ∈ c.system_manager.tracked.filter
          (fun e => Signature.covers (c.system_manager.signatures e) signature) ↔
        (e ∈ c.entity_manager.live ∧
          Signature.covers (c.entity_manager.getSignature e) signature = true)
      rw [Finset.mem_filter]
      constructor
      · rintro ⟨ht, hcov⟩
        rw [hk.tracked_signature e ht] at hcov
        exact ⟨hk.tracked_live e ht, hcov⟩
      · rintro ⟨hl, hcov⟩
        have hne : c.entity_manager.getSignature e ≠ 0 := by
          intro h0
          rw [h0, Signature.covers_zero_left, decide_eq_true_eq] at hcov
          exact hR hcov
        have ht := hk.known e hl hne
        rw [← hk.tracked_signature e ht] at hcov
        exact ⟨ht, hcov⟩
  · simp only [hn, Bool.false_eq_true, if_false] at hr1
    subst hr1
    exact h r0 hr0

end SystemsTrack

namespace RegistryInSync

theorem sync_at_init : RegistryInSync (world0 V) :=
  ⟨fun e he => absurd he (Finset.not_mem_empty e), fun e he => absurd he (Finset.not_mem_empty e),
    fun e he => absurd he (Finset.not_mem_empty e)⟩

theorem sync_congr {c c2 : Coordinator V} (h : RegistryInSync c)
    (h1 : c2.entity_manager = c.entity_manager)
    (h2 : c2.system_manager.tracked = c.system_manager.tracked)
    (h3 : c2.system_manager.signatures = c.system_manager.signatures) :
    RegistryInSync c2 := by
  refine ⟨?_, ?_, ?_⟩
  · rw [h1, h2]; exact h.tracked_live
  · rw [h1, h2, h3]; exact h.tracked_signature
  · rw [h1, h2]; exact h.known

/-- Issuing an identity keeps the registry in step: the new entity has the zero signature
and was not tracked. -/
theorem sync_allocate {c : Coordinator V} (h : RegistryInSync c) (hc : Consistent c)
    (MAX_ENTITIES : Nat) (f : Entity → List (String × Entity)) :
    RegistryInSync (match c.entity_manager.createEntity MAX_ENTITIES with
      | (.ok id, em) => { c with entity_manager := em, entities := f id }
      | (.error _, em) => { c with entity_manager := em }) := by
  rcases EntityManager.createEntity_cases MAX_ENTITIES c.entity_manager hc.alloc with
    ⟨_, hf⟩ | ⟨_, id, em2, hs, hid, hlive, hsig, hwf⟩
  · rw [hf]; exact h.sync_congr rfl rfl rfl
  · rw [hs]
    have hne : ∀ e ∈ c.system_manager.tracked, e ≠ id :=
      fun e he heq => hid (heq ▸ h.tracked_live e he)
    refine ⟨?_, ?_, ?_⟩
    · intro e he
      show e ∈ em2.live
      rw [hlive]
      exact Finset.mem_insert_of_mem (h.tracked_live e he)
    · intro e he
      show c.system_manager.signatures e = em2.signatures e
      rw [hsig, if_neg (hne e he)]
      exact h.tracked_signature e he
    · intro e he hs0
      have he2 : e ∈ em2.live := he
      have hs2 : em2.signatures e ≠ 0 := hs0
      rw [hsig] at hs2
      rw [hlive, Finset.mem_insert] at he2
      by_cases heq : e = id
      · rw [if_pos heq] at hs2; exact absurd rfl hs2
      · rw [if_neg heq] at hs2
        rcases he2 with he2 | he2
        · exact absurd he2 heq
        · exact h.known e he2 hs2

theorem sync_createEntity {c : Coordinator V} (h : RegistryInSync c) (hc : Consistent c)
    (MAX_ENTITIES : Nat) (generated : String) :
    RegistryInSync (c.createEntity MAX_ENTITIES generated).2 := by
  have := h.sync_allocate hc MAX_ENTITIES
    (fun id => Dict.assign c.entities (createKey id generated) id)
  unfold Coordinator.createEntity
  cases hcr : c.entity_manager.createEntity MAX_ENTITIES with
  | mk r em =>
    rw [hcr] at this
    cases r <;> exact this

theorem sync_createEntityNamed {c : Coordinator V} (h : RegistryInSync c) (hc : Consistent c)
    (MAX_ENTITIES : Nat) (key : String) :
    RegistryInSync (c.createEntityNamed MAX_ENTITIES key).2 := by
  unfold Coordinator.createEntityNamed
  cases hf : Dict.find c.entities key with
  | some id => exact h
  | none =>
    have := h.sync_allocate hc MAX_ENTITIES (fun id => Dict.assign c.entities key id)
    cases hcr : c.entity_manager.createEntity MAX_ENTITIES with
    | mk r em =>
      rw [hcr] at this
      cases r <;> exact this

theorem sync_destroyEntity {c : Coordinator V} (h : RegistryInSync c) (entity : Entity) :
    RegistryInSync (c.destroyEntity entity).2 := by
  unfold Coordinator.destroyEntity EntityManager.destroyEntity
  by_cases hl : entity ∈ c.entity_manager.live
  · simp only [hl, if_true]
    refine ⟨?_, ?_, ?_⟩
    · intro e he
      have he2 : e ∈ c.system_manager.tracked.erase entity := he
      show e ∈ c.entity_manager.live.erase entity
      rw [Finset.mem_erase] at he2 ⊢
      exact ⟨he2.1, h.tracked_live e he2.2⟩
    · intro e he
      have he2 : e ∈ c.system_manager.tracked.erase entity := he
      exact h.tracked_signature e (Finset.mem_of_mem_erase he2)
    · intro e he hs0
      have he2 : e ∈ c.entity_manager.live.erase entity := he
      show e ∈ c.system_manager.tracked.erase entity
      rw [Finset.mem_erase] at he2 ⊢
      exact ⟨he2.1, h.known e he2.2 hs0⟩
  · simp only [hl, if_false]
    exact h.sync_congr rfl rfl rfl

theorem sync_destroyEntityNamed {c : Coordinator V} (h : RegistryInSync c) (key : String) :
    RegistryInSync (c.destroyEntityNamed key).2 := by
  unfold Coordinator.destroyEntityNamed
  cases Dict.find c.entities key with
  | some id => exact h.sync_destroyEntity id
  | none => exact h

/-- Telling the systems of a live entity's new signature keeps the registry in step. -/
theorem sync_signatureChanged {c c2 : Coordinator V} (h : RegistryInSync c) (e : Entity)
    (s : Signature) (he : e ∈ c.entity_manager.live)
    (hem : c2.entity_manager = c.entity_manager.setSignature e s)
    (hsm : c2.system_manager = c.system_manager.entitySignatureChanged e s) :
    RegistryInSync c2 := by
  refine ⟨?_, ?_, ?_⟩
  · intro x hx
    rw [hsm] at hx
    have hx2 : x ∈ insert e c.system_manager.tracked := hx
    rw [hem]
    show x ∈ c.entity_manager.live
    rcases Finset.mem_insert.mp hx2 with h1 | h1
    · rw [h1]; exact he
    · exact h.tracked_live x h1
  · intro x hx
    rw [hsm] at hx
    have hx2 : x ∈ insert e c.system_manager.tracked := hx
    rw [hsm, hem]
    show (if x = e then s else c.system_manager.signatures x)
      = (if x = e then s else c.entity_manager.signatures x)
    by_cases hxe : x = e
    · rw [if_pos hxe, if_pos hxe]
    · rw [if_neg hxe, if_neg hxe]
      rcases Finset.mem_insert.mp hx2 with h1 | h1
      · exact absurd h1 hxe
      · exact h.tracked_signature x h1
  · intro x hx hs0
    rw [hem] at hx hs0
    have hx2 : x ∈ c.entity_manager.live := hx
    have hs2 : (if x = e then s else c.entity_manager.signatures x) ≠ 0 := hs0
    rw [hsm]
    show x ∈ insert e c.system_manager.tracked
    by_cases hxe : x = e
    · rw [hxe]; exact Finset.mem_insert_self _ _
    · rw [if_neg hxe] at hs2
      exact Finset.mem_insert_of_mem (h.known x hx2 hs2)

theorem sync_addComponent {c : Coordinator V} (h : RegistryInSync c) (T : TypeName)
    (e : Entity) (v : V) (he : e ∈ c.entity_manager.live) :
    RegistryInSync (c.addComponent T e v).2 := by
  rcases addComponent_cases c T e v with ⟨_, hsame⟩ | ⟨err, _, hsame⟩ |
    ⟨t, c2, ht, hhas, hres, htypes, harr, hem, hsm, _, _⟩
  · rw [hsame]; exact h
  · rw [hsame]; exact h
  · rw [hres]; exact h.sync_signatureChanged e _ he hem hsm

theorem sync_removeComponent {c : Coordinator V} (h : RegistryInSync c) (hc : Consistent c)
    (T : TypeName) (e : Entity) : RegistryInSync (c.removeComponent T e).2 := by
  rcases removeComponent_cases c T e with ⟨_, err, hres⟩ |
    ⟨t, c2, ht, hhas, hres, htypes, harr, hem, hsm, _, _⟩
  · rw [hres]; exact h
  · rw [hres]
    have he : e ∈ c.entity_manager.live := by
      by_contra hd
      rw [hc.dead_clean e hd t] at hhas
      exact Bool.false_ne_true hhas
    exact h.sync_signatureChanged e _ he hem hsm

theorem sync_registerSystem {c : Coordinator V} (h : RegistryInSync c) (T : TypeName) :
    RegistryInSync (c.registerSystem T) := by
  unfold Coordinator.registerSystem SystemManager.registerSystem
  split
  · exact h.sync_congr rfl rfl rfl
  · exact h.sync_congr rfl rfl rfl

theorem sync_setSystemSignature {c : Coordinator V} (h : RegistryInSync c) (T : TypeName)
    (signature : Signature) : RegistryInSync (c.setSystemSignature T signature) :=
  h.sync_congr rfl rfl rfl

/-- The registry stays in step over every admissible call. -/
theorem sync_after_step {c : Coordinator V} (h : RegistryInSync c) (hc : Consistent c)
    (MAX_ENTITIES MAX_COMPONENTS : Nat) (op : Op V) (hop : op.admissible c = true) :
    RegistryInSync (step MAX_ENTITIES MAX_COMPONENTS c op) := by
  cases op with
  | createEntity generated => exact h.sync_createEntity hc _ _
  | createEntityNamed key => exact h.sync_createEntityNamed hc _ _
  | destroyEntity entity => exact h.sync_destroyEntity _
  | destroyEntityNamed key => exact h.sync_destroyEntityNamed _
  | registerComponent T => exact h.sync_congr rfl rfl rfl
  | addComponent T entity component =>
    exact h.sync_addComponent _ _ _ (by simpa [Op.admissible] using hop)
  | removeComponent T entity => exact h.sync_removeComponent hc _ _
  | writeComponent T entity value =>
    rcases writeComponent_cases c T entity value with ⟨_, _, hsame⟩ |
      ⟨t, c2, _, _, hres, _, _, hem, hsm, _, _⟩
    · show RegistryInSync (c.writeComponent T entity value).2
      rw [hsame]; exact h
    · show RegistryInSync (c.writeComponent T entity value).2
      rw [hres]; exact h.sync_congr hem (by rw [hsm]) (by rw [hsm])
  | registerSystem T => exact h.sync_registerSystem _
  | setSystemSignature T signature => exact h.sync_setSystemSignature _ _
  | backup serializer =>
    exact h.sync_congr (backup_frame c serializer).2.1
      (congrArg SystemManager.tracked (backup_frame c serializer).2.2.1)
      (congrArg SystemManager.signatures (backup_frame c serializer).2.2.1)
  | restore deserializer => simp [Op.admissible] at hop

end RegistryInSync

/-- System tracking survives every admissible call. -/
theorem SystemsTrack.tracks_after_step {c : Coordinator V} (h : SystemsTrack c) (hc : Consistent c)
    (hk : RegistryInSync c) (MAX_ENTITIES MAX_COMPONENTS : Nat) (op : Op V)
    (hop : op.admissible c = true) :
    SystemsTrack (step MAX_ENTITIES MAX_COMPONENTS c op) := by
  cases op with
  | createEntity generated => exact h.tracks_createEntity hc _ _
  | createEntityNamed key => exact h.tracks_createEntityNamed hc _ _
  | destroyEntity entity => exact h.tracks_destroyEntity _
  | destroyEntityNamed key => exact h.tracks_destroyEntityNamed _
  | registerComponent T => exact h.tracks_congr rfl rfl
  | addComponent T entity component =>
    exact h.tracks_addComponent _ _ _ (by simpa [Op.admissible] using hop)
  | removeComponent T entity => exact h.tracks_removeComponent hc _ _
  | writeComponent T entity value =>
    rcases writeComponent_cases c T entity value with ⟨_, _, hsame⟩ |
      ⟨t, c2, _, _, hres, _, _, hem, hsm, _, _⟩
    · show SystemsTrack (c.writeComponent T entity value).2
      rw [hsame]; exact h
    · show SystemsTrack (c.writeComponent T entity value).2
      rw [hres]; exact h.tracks_congr hem hsm
  | registerSystem T => exact h.tracks_registerSystem _
  | setSystemSignature T signature => exact h.tracks_setSystemSignature hk _ _
  | backup serializer =>
    exact h.tracks_congr (backup_frame c serializer).2.1 (backup_frame c serializer).2.2.1
  | restore deserializer => simp [Op.admissible] at hop

theorem SystemsTrack.tracks_after_run (MAX_ENTITIES MAX_COMPONENTS : Nat) (ops : List (Op V)) :
    ∀ (c : Coordinator V), Consistent c → RegistryInSync c → SystemsTrack c →
      admissibleFrom MAX_ENTITIES MAX_COMPONENTS c ops = true →
      SystemsTrack (run MAX_ENTITIES MAX_COMPONENTS c ops) := by
  induction ops with
  | nil => intro c _ _ h _; exact h
  | cons op ops ih =>
    intro c hc hk h hs
    simp only [admissibleFrom, Bool.and_eq_true] at hs
    exact ih _ (hc.after_step _ _ op hs.1) (hk.sync_after_step hc _ _ op hs.1)
      (h.tracks_after_step hc hk _ _ op hs.1) hs.2

/-- C2 (amended): after any sequence of calls from `init()` in which `addComponent` names
live entities, a system with a non-empty required signature `R` tracks exactly the live
entities `e` with `(signature(e) & R) == R`; the requirement may be set at any point of the
sequence, also while entities are live. -/
theorem system_set_eq_matching (MAX_ENTITIES MAX_COMPONENTS : Nat) (ops : List (Op V))
    (hops : admissibleFrom MAX_ENTITIES MAX_COMPONENTS (world0 V) ops = true)
    (r : SystemRecord)
    (hr : r ∈ (run MAX_ENTITIES MAX_COMPONENTS (world0 V) ops).system_manager.systems)
    (hR : r.signature ≠ 0) (e : Entity) :
    e ∈ r.system.entities ↔
      (e ∈ (run MAX_ENTITIES MAX_COMPONENTS (world0 V) ops).entity_manager.live ∧
        Signature.covers
          ((run MAX_ENTITIES MAX_COMPONENTS (world0 V) ops).entity_manager.getSignature e)
          r.signature = true) :=
  ((SystemsTrack.tracks_after_run MAX_ENTITIES MAX_COMPONENTS ops (world0 V) Consistent.at_init
    RegistryInSync.sync_at_init SystemsTrack.tracks_at_init hops) r hr).2 hR e

theorem system_set_eq_matching_witness :
    (admissibleFrom 8 8 (world0 Nat)
        [.registerComponent "Transform", .registerSystem "RenderSystem",
          .createEntityNamed "CHAR", .addComponent "Transform" 0 7,
          .setSystemSignature "RenderSystem" 1, .createEntityNamed "CAMERA"] = true
      ∧ ({ name := "RenderSystem", signature := 1, system := { entities := {0} } } : SystemRecord)
          ∈ (run 8 8 (world0 Nat)
            [.registerComponent "Transform", .registerSystem "RenderSystem",
              .createEntityNamed "CHAR", .addComponent "Transform" 0 7,
              .setSystemSignature "RenderSystem" 1,
              .createEntityNamed "CAMERA"]).system_manager.systems
      ∧ (1 : Signature) ≠ 0)
    ∧ (0 ∈ ({0} : Finset Entity) ↔
        (0 ∈ (run 8 8 (world0 Nat)
            [.registerComponent "Transform", .registerSystem "RenderSystem",
              .createEntityNamed "CHAR", .addComponent "Transform" 0 7,
              .setSystemSignature "RenderSystem" 1,
              .createEntityNamed "CAMERA"]).entity_manager.live ∧
          Signature.covers ((run 8 8 (world0 Nat)
            [.registerComponent "Transform", .registerSystem "RenderSystem",
              .createEntityNamed "CHAR", .addComponent "Transform" 0 7,
              .setSystemSignature "RenderSystem" 1,
              .createEntityNamed "CAMERA"]).entity_manager.getSignature 0) 1 = true)) :=
  ⟨⟨by decide, by decide, by decide⟩,
    system_set_eq_matching 8 8 _ (by decide)
      { name := "RenderSystem", signature := 1, system := { entities := {0} } }
      (by decide) (by decide) 0⟩

/-- C2 as stated fails in two ways.  For the empty requirement a system has before
`setSystemSignature`: a newly created entity matches it (`(0 & 0) == 0`), but creation
tells no system (first session).  For an identity that is not live: `addComponent` checks
no liveness, so the entity enters the set of a system it matches although it is not live
(second session). -/
theorem system_misses_created_entity :
    (run 8 8 (world0 Nat) [.registerSystem "RenderSystem",
        .createEntityNamed "CHAR"]).system_manager.systems.map
          (fun r => (r.name, r.signature, r.system.entities)) = [("RenderSystem", 0, ∅)]
      ∧ 0 ∈ (run 8 8 (world0 Nat) [.registerSystem "RenderSystem",
        .createEntityNamed "CHAR"]).entity_manager.live
      ∧ Signature.covers ((run 8 8 (world0 Nat) [.registerSystem "RenderSystem",
        .createEntityNamed "CHAR"]).entity_manager.getSignature 0) 0 = true
      ∧ (run 8 8 (world0 Nat) [.registerComponent "Transform", .registerSystem "RenderSystem",
          .setSystemSignature "RenderSystem" 1,
          .addComponent "Transform" 5 7]).system_manager.systems.map
            (fun r => (r.name, r.signature, r.system.entities)) = [("RenderSystem", 1, {5})]
      ∧ 5 ∉ (run 8 8 (world0 Nat) [.registerComponent "Transform",
          .registerSystem "RenderSystem", .setSystemSignature "RenderSystem" 1,
          .addComponent "Transform" 5 7]).entity_manager.live :=
  ⟨by decide, by decide, by decide, by decide, by decide⟩

namespace Dict
variable {X : Type}

theorem mem_assign (m : List (String × X)) (k : String) (x : X) (p : String × X)
    (h : p ∈ assign m k x) : p = (k, x) ∨ p ∈ m := by
  induction m with
  | nil => left; simpa [assign] using h
  | cons q m ih =>
    by_cases hq : q.1 = k
    · simp only [assign, hq, beq_self_eq_true, if_true, List.mem_cons] at h
      rcases h with h | h
      · left; exact h
      · right; exact List.mem_cons_of_mem _ h
    · simp only [assign, hq, beq_iff_eq, if_false, List.mem_cons] at h
      rcases h with h | h
      · right; rw [h]; exact List.mem_cons_self _ _
      · rcases ih h with h2 | h2
        · left; exact h2
        · right; exact List.mem_cons_of_mem _ h2

theorem values_assign_nodup (m : List (String × X)) (k : String) (x : X)
    (hn : (m.map Prod.snd).Nodup) (hx : x ∉ m.map Prod.snd) :
    ((assign m k x).map Prod.snd).Nodup := by
  induction m with
  | nil => simp [assign]
  | cons q m ih =>
    simp only [List.map_cons, List.nodup_cons, List.mem_cons, not_or] at hn hx
    by_cases hq : q.1 = k
    · simp only [assign, hq, beq_self_eq_true, if_true, List.map_cons, List.nodup_cons]
      exact ⟨hx.2, hn.2⟩
    · simp only [assign, hq, beq_iff_eq, if_false, List.map_cons, List.nodup_cons]
      refine ⟨?_, ih hn.2 hx.2⟩
      intro hmem
      obtain ⟨p, hp, hp2⟩ := List.mem_map.mp hmem
      rcases mem_assign m k x p hp with h | h
      · apply hx.1; rw [← hp2, h]
      · apply hn.1; rw [← hp2]; exact List.mem_map.mpr ⟨p, h, rfl⟩

theorem key_unique_of_values_nodup (m : List (String × X)) (hn : (m.map Prod.snd).Nodup)
    (a b : String) (x : X) (ha : (a, x) ∈ m) (hb : (b, x) ∈ m) : a = b := by
  have := List.inj_on_of_nodup_map hn ha hb rfl
  exact congrArg Prod.fst this

end Dict

theorem getEntityKey_of_mem (c : Coordinator V) (hn : (c.entities.map Prod.snd).Nodup)
    (k : String) (e : Entity) (h : (k, e) ∈ c.entities) : c.getEntityKey e = k := by
  unfold getEntityKey
  cases hf : List.find? (fun p => p.2 == e) c.entities with
  | none =>
    have := List.find?_eq_none.mp hf (k, e) h
    simp at this
  | some p =>
    have h1 := List.find?_some hf
    have h2 := List.mem_of_find?_eq_some hf
    simp only [beq_iff_eq] at h1
    have : (p.1, e) ∈ c.entities := by rw [← h1]; exact h2
    exact Dict.key_unique_of_values_nodup _ hn _ _ e this h

namespace DirectoryInv

theorem dir_at_init : DirectoryInv (world0 V) :=
  { alloc := EntityManager.WF_init
    keys := List.nodup_nil
    injective := List.nodup_nil
    live := by intro p hp; simp [world0, Coordinator.init, Coordinator.constructed] at hp }

/-- The directory invariant only looks at the directory and the allocator's identities. -/
theorem dir_congr {c c2 : Coordinator V} (h : DirectoryInv c)
    (h1 : c2.entities = c.entities) (h2 : c2.entity_manager.live = c.entity_manager.live)
    (h3 : c2.entity_manager.pool = c.entity_manager.pool)
    (h4 : c2.entity_manager.next = c.entity_manager.next) : DirectoryInv c2 :=
  { alloc :=
      { pool_nodup := by rw [h3]; exact h.alloc.pool_nodup
        pool_dead := by rw [h3, h2]; exact h.alloc.pool_dead
        pool_lt := by rw [h3, h4]; exact h.alloc.pool_lt
        live_lt := by rw [h2, h4]; exact h.alloc.live_lt }
    keys := by rw [h1]; exact h.keys
    injective := by rw [h1]; exact h.injective
    live := by rw [h1, h2]; exact h.live }

theorem dir_allocate {c : Coordinator V} (h : DirectoryInv c) (MAX_ENTITIES : Nat)
    (key : Entity → String) :
    DirectoryInv (match c.entity_manager.createEntity MAX_ENTITIES with
      | (.ok id, em) => { c with entity_manager := em,
                                 entities := Dict.assign c.entities (key id) id }
      | (.error _, em) => { c with entity_manager := em }) := by
  rcases EntityManager.createEntity_cases MAX_ENTITIES c.entity_manager h.alloc with
    ⟨_, hf⟩ | ⟨_, id, em2, hs, hid, hlive, hsig, hwf⟩
  · rw [hf]; exact h.dir_congr rfl rfl rfl rfl
  · rw [hs]
    have hfresh : id ∉ c.entities.map Prod.snd := by
      intro hm
      obtain ⟨p, hp, hp2⟩ := List.mem_map.mp hm
      exact hid (hp2 ▸ h.live p hp)
    exact
      { alloc := hwf
        keys := Dict.keysDistinct_assign _ _ _ h.keys
        injective := Dict.values_assign_nodup _ _ _ h.injective hfresh
        live := by
          intro p hp
          show p.2 ∈ em2.live
          rw [hlive]
          rcases Dict.mem_assign _ _ _ p hp with h1 | h1
          · rw [h1]; exact Finset.mem_insert_self _ _
          · exact Finset.mem_insert_of_mem (h.live p h1) }

theorem dir_createEntity {c : Coordinator V} (h : DirectoryInv c) (MAX_ENTITIES : Nat)
    (generated : String) : DirectoryInv (c.createEntity MAX_ENTITIES generated).2 := by
  have := h.dir_allocate MAX_ENTITIES (fun id => createKey id generated)
  unfold Coordinator.createEntity
  cases hc : c.entity_manager.createEntity MAX_ENTITIES with
  | mk r em =>
    rw [hc] at this
    cases r <;> exact this

theorem dir_createEntityNamed {c : Coordinator V} (h : DirectoryInv c) (MAX_ENTITIES : Nat)
    (key : String) : DirectoryInv (c.createEntityNamed MAX_ENTITIES key).2 := by
  unfold Coordinator.createEntityNamed
  cases hf : Dict.find c.entities key with
  | some id => exact h
  | none =>
    have := h.dir_allocate MAX_ENTITIES (fun _ => key)
    cases hc : c.entity_manager.createEntity MAX_ENTITIES with
    | mk r em =>
      rw [hc] at this
      cases r <;> exact this

theorem dir_destroyEntity {c : Coordinator V} (h : DirectoryInv c) (entity : Entity) :
    DirectoryInv (c.destroyEntity entity).2 := by
  unfold Coordinator.destroyEntity
  have hwf := EntityManager.destroyEntity_WF c.entity_manager entity h.alloc
  unfold EntityManager.destroyEntity at hwf ⊢
  by_cases hl : entity ∈ c.entity_manager.live
  · simp only [hl, if_true] at hwf ⊢
    exact
      { alloc := hwf
        keys := Dict.keysDistinct_erase _ _ h.keys
        injective := (List.Sublist.map _ (List.filter_sublist c.entities)).nodup h.injective
        live := by
          intro p hp
          have hp2 := (Dict.mem_erase _ _ p).mp hp
          show p.2 ∈ c.entity_manager.live.erase entity
          rw [Finset.mem_erase]
          refine ⟨?_, h.live p hp2.1⟩
          intro heq
          apply hp2.2
          have hmem : (p.1, entity) ∈ c.entities := by rw [← heq]; exact hp2.1
          exact (getEntityKey_of_mem c h.injective p.1 entity hmem).symm }
  · simp only [hl, if_false]
    exact h.dir_congr rfl rfl rfl rfl

theorem dir_destroyEntityNamed {c : Coordinator V} (h : DirectoryInv c) (key : String) :
    DirectoryInv (c.destroyEntityNamed key).2 := by
  unfold Coordinator.destroyEntityNamed
  cases Dict.find c.entities key with
  | some id => exact h.dir_destroyEntity id
  | none => exact h

theorem dir_restoreEntity {c : Coordinator V} (h : DirectoryInv c) (MAX_ENTITIES : Nat)
    (slot : Nat) (entitySnap : Json V) (d : StateDeserializer V) (hd : d.keepsDirectory) :
    DirectoryInv (c.restoreEntity MAX_ENTITIES slot entitySnap d).2 := by
  unfold Coordinator.restoreEntity
  cases hf : Dict.find entitySnap "eId" with
  | none => exact h.dir_congr rfl rfl rfl rfl
  | some x =>
    cases x with
    | null => exact h
    | number n => exact h
    | data v => exact h
    | string key =>
      have h1 := h.dir_createEntityNamed MAX_ENTITIES key
      dsimp only
      cases hc : c.createEntityNamed MAX_ENTITIES key with
      | mk r c1 =>
        rw [hc] at h1
        cases r with
        | error err => exact h1
        | ok entity =>
          exact (hd entitySnap entity c1 h1).dir_congr rfl rfl rfl rfl

theorem dir_restoreFrom (MAX_ENTITIES : Nat) (d : StateDeserializer V) (hd : d.keepsDirectory)
    (recs : List (Json V)) :
    ∀ (slot : Nat) (c : Coordinator V), DirectoryInv c →
      DirectoryInv (restoreFrom MAX_ENTITIES d recs slot c).2 := by
  induction recs with
  | nil => intro slot c h; exact h
  | cons r rs ih =>
    intro slot c h
    have h1 := h.dir_restoreEntity MAX_ENTITIES slot r d hd
    unfold restoreFrom
    cases hc : c.restoreEntity MAX_ENTITIES slot r d with
    | mk res c1 =>
      rw [hc] at h1
      cases res with
      | error err => exact h1
      | ok u => exact ih _ _ h1

theorem dir_after_step {c : Coordinator V} (h : DirectoryInv c)
    (MAX_ENTITIES MAX_COMPONENTS : Nat) (op : Op V) (hop : op.keepsDirectory) :
    DirectoryInv (step MAX_ENTITIES MAX_COMPONENTS c op) := by
  cases op with
  | createEntity generated => exact h.dir_createEntity _ _
  | createEntityNamed key => exact h.dir_createEntityNamed _ _
  | destroyEntity entity => exact h.dir_destroyEntity _
  | destroyEntityNamed key => exact h.dir_destroyEntityNamed _
  | registerComponent T => exact h.dir_congr rfl rfl rfl rfl
  | addComponent T entity component =>
    show DirectoryInv (c.addComponent T entity component).2
    rcases addComponent_cases c T entity component with ⟨_, hsame⟩ | ⟨err, _, hsame⟩ |
      ⟨t, c2, _, _, hres, _, _, hem, _, hent, _⟩
    · rw [hsame]; exact h
    · rw [hsame]; exact h
    · rw [hres]; exact h.dir_congr hent (by rw [hem]; rfl) (by rw [hem]; rfl) (by rw [hem]; rfl)
  | removeComponent T entity =>
    show DirectoryInv (c.removeComponent T entity).2
    rcases removeComponent_cases c T entity with ⟨_, err, hres⟩ |
      ⟨t, c2, _, _, hres, _, _, hem, _, hent, _⟩
    · rw [hres]; exact h
    · rw [hres]; exact h.dir_congr hent (by rw [hem]; rfl) (by rw [hem]; rfl) (by rw [hem]; rfl)
  | writeComponent T entity value =>
    show DirectoryInv (c.writeComponent T entity value).2
    rcases writeComponent_cases c T entity value with ⟨_, _, hsame⟩ |
      ⟨t, c2, _, _, hres, _, _, hem, _, hent, _⟩
    · rw [hsame]; exact h
    · rw [hres]; exact h.dir_congr hent (by rw [hem]) (by rw [hem]) (by rw [hem])
  | registerSystem T => exact h.dir_congr rfl rfl rfl rfl
  | setSystemSignature T signature => exact h.dir_congr rfl rfl rfl rfl
  | backup serializer =>
    have hb := backup_frame c serializer
    show DirectoryInv (c.backup serializer)
    exact h.dir_congr hb.2.2.2 (congrArg EntityManager.live hb.2.1)
      (congrArg EntityManager.pool hb.2.1) (congrArg EntityManager.next hb.2.1)
  | restore deserializer => exact dir_restoreFrom _ _ hop _ _ _ h

theorem dir_after_run (MAX_ENTITIES MAX_COMPONENTS : Nat) (ops : List (Op V))
    (hops : ∀ op ∈ ops, op.keepsDirectory) :
    ∀ (c : Coordinator V), DirectoryInv c →
      DirectoryInv (run MAX_ENTITIES MAX_COMPONENTS c ops) := by
  induction ops with
  | nil => intro c h; exact h
  | cons op ops ih =>
    intro c h
    exact ih (fun o ho => hops o (List.mem_cons_of_mem _ ho)) _
      (h.dir_after_step _ _ op (hops op (List.mem_cons_self _ _)))

end DirectoryInv

/-- A deserializer that changes the world through facade calls only keeps the directory
sound, when the deserializers those calls carry do. -/
theorem viaFacade_keepsDirectory (MAX_ENTITIES MAX_COMPONENTS : Nat)
    (ops : Json V → Entity → List (Op V))
    (hops : ∀ r e, ∀ op ∈ ops r e, op.keepsDirectory) :
    (viaFacade MAX_ENTITIES MAX_COMPONENTS ops).keepsDirectory :=
  fun r e c h => DirectoryInv.dir_after_run MAX_ENTITIES MAX_COMPONENTS (ops r e) (hops r e) c h

namespace SameShape

end SameShape

theorem ComponentManager.hasComponent_of_getComponent (cm : ComponentManager V) (T : TypeName)
    (e : Entity) (v : V) (h : cm.getComponent T e = .ok v) : cm.hasComponent T e = true := by
  unfold ComponentManager.getComponent at h
  unfold ComponentManager.hasComponent
  cases ht : cm.getComponentType T with
  | error err => simp [ht] at h
  | ok t =>
    simp only [ht] at h ⊢
    unfold ComponentArray.has
    cases hg : (cm.componentArrays t).get e with
    | none => simp [hg] at h
    | some x => rfl

/-- C7: adding a component of a type the entity already holds raises no error and leaves
the whole world as it was; in particular the stored value still reads back. -/
theorem addComponent_duplicate (c : Coordinator V) (T : TypeName) (e : Entity) (v w : V)
    (h : c.getComponent T e = .ok v) :
    c.addComponent T e w = (.ok (), c) ∧ (c.addComponent T e w).2.getComponent T e = .ok v := by
  have hh := ComponentManager.hasComponent_of_getComponent c.component_manager T e v h
  have : c.addComponent T e w = (.ok (), c) := by
    unfold addComponent; simp [hh]
  exact ⟨this, by rw [this]; exact h⟩

theorem addComponent_duplicate_witness :
    positionWorld.getComponent "Position" 0 = .ok (10, 20)
      ∧ (positionWorld.addComponent "Position" 0 (99, 99) = (.ok (), positionWorld)
        ∧ (positionWorld.addComponent "Position" 0 (99, 99)).2.getComponent "Position" 0
          = .ok (10, 20)) :=
  ⟨by decide, addComponent_duplicate positionWorld "Position" 0 (10, 20) (99, 99) (by decide)⟩

/-- C9: `getEntitiesStartsWith` returns, in directory order, the entity of every entry
whose name begins with the search term and nothing else; the empty term returns every
named entity; with `CAM_MAIN`, `CAM_DEBUG` and `CHAR_1` the term `CAM` yields the first
two. -/
theorem getEntitiesStartsWith_spec (c : Coordinator V) (searchTerm : String) :
    c.getEntitiesStartsWith searchTerm =
        (c.entities.filter (fun p => decide (searchTerm.toList <+: p.1.toList))).map Prod.snd
      ∧ c.getEntitiesStartsWith "" = c.entities.map Prod.snd
      ∧ (run 8 8 (world0 Unit) [.createEntityNamed "CAM_MAIN", .createEntityNamed "CAM_DEBUG",
            .createEntityNamed "CHAR_1"]).getEntitiesStartsWith "CAM" = [0, 1] := by
  have key : ∀ t : String, c.getEntitiesStartsWith t =
      (c.entities.filter (fun p => decide (t.toList <+: p.1.toList))).map Prod.snd := by
    intro t
    unfold getEntitiesStartsWith
    congr 1
    apply List.filter_congr
    intro p _
    rw [Bool.eq_iff_iff, beq_iff_eq, stringFind_eq_zero_iff, decide_eq_true_iff]
  refine ⟨key _, ?_, ?_⟩
  · rw [key]; simp
  · decide

theorem Dict.filter_key_of_find {X : Type} (m : List (String × X)) (k : String) (x : X)
    (hd : Dict.keysDistinct m) (h : Dict.find m k = some x) :
    m.filter (fun p => p.1 == k) = [(k, x)] := by
  induction m with
  | nil => simp [Dict.find] at h
  | cons p m ih =>
    unfold Dict.keysDistinct at hd
    simp only [List.map_cons, List.nodup_cons] at hd
    by_cases hp : p.1 = k
    · simp only [Dict.find, hp, beq_self_eq_true, if_true, Option.some.injEq] at h
      have hnone : ∀ q ∈ m, ¬ (q.1 == k) = true := by
        intro q hq hqk
        simp only [beq_iff_eq] at hqk
        apply hd.1; rw [hp, ← hqk]; exact List.mem_map.mpr ⟨q, hq, rfl⟩
      rw [List.filter_cons_of_pos (by simpa using hp), List.filter_eq_nil_iff.mpr hnone]
      rw [← hp, ← h]
    · simp only [Dict.find, hp, beq_iff_eq, if_false] at h
      rw [List.filter_cons_of_neg (by simpa using hp)]
      exact ih hd.2 h

/-- C3: `createEntity(X)` returns exactly when `X` is already named or the allocator has
room; whenever it returns, a second call returns the same entity and leaves the world as
the first call left it, and the directory holds exactly one entry for `X`. -/
theorem createEntityNamed_twice (MAX_ENTITIES : Nat) (c : Coordinator V) (key : String)
    (hd : Dict.keysDistinct c.entities) :
    ((∃ e c1, c.createEntityNamed MAX_ENTITIES key = (.ok e, c1)) ↔
        (Dict.contains c.entities key = true ∨ c.entity_manager.live.card < MAX_ENTITIES))
      ∧ ∀ e c1, c.createEntityNamed MAX_ENTITIES key = (.ok e, c1) →
          c1.createEntityNamed MAX_ENTITIES key = (.ok e, c1)
            ∧ c1.entities.filter (fun p => p.1 == key) = [(key, e)] := by
  cases hf : Dict.find c.entities key with
  | some id =>
    have h1 : c.createEntityNamed MAX_ENTITIES key = (.ok id, c) := by
      unfold createEntityNamed; simp [hf]
    refine ⟨⟨fun _ => Or.inl (by simp [Dict.contains, hf]), fun _ => ⟨id, c, h1⟩⟩, ?_⟩
    intro e c1 h2
    rw [h1] at h2
    simp only [Prod.mk.injEq, Except.ok.injEq] at h2
    obtain ⟨rfl, rfl⟩ := h2
    exact ⟨h1, Dict.filter_key_of_find _ _ _ hd hf⟩
  | none =>
    have hunf : c.createEntityNamed MAX_ENTITIES key =
        match c.entity_manager.createEntity MAX_ENTITIES with
        | (.ok id, em) =>
          (.ok id, { c with entity_manager := em, entities := Dict.assign c.entities key id })
        | (.error err, em) => (.error err, { c with entity_manager := em }) := by
      unfold createEntityNamed; simp [hf]
    have hsecond : ∀ (id : Entity) (em : EntityManager),
        ({ c with entity_manager := em,
                  entities := Dict.assign c.entities key id } : Coordinator V).createEntityNamed
            MAX_ENTITIES key
          = (.ok id, { c with entity_manager := em,
                              entities := Dict.assign c.entities key id }) := by
      intro id em
      unfold createEntityNamed; simp [Dict.find_assign_self]
    by_cases hcard : MAX_ENTITIES ≤ c.entity_manager.live.card
    · have hfail : c.entity_manager.createEntity MAX_ENTITIES
          = (.error .capacityExceeded, c.entity_manager) := by
        unfold EntityManager.createEntity; simp [hcard]
      rw [hunf, hfail]
      refine ⟨⟨?_, ?_⟩, ?_⟩
      · rintro ⟨e, c1, h⟩; cases h
      · rintro (h | h)
        · simp [Dict.contains, hf] at h
        · omega
      · intro e c1 h; cases h
    · have hcreate : ∃ id em, c.entity_manager.createEntity MAX_ENTITIES = (.ok id, em) := by
        unfold EntityManager.createEntity
        simp only [hcard, if_false]
        cases c.entity_manager.pool with
        | nil => exact ⟨_, _, rfl⟩
        | cons a l => exact ⟨_, _, rfl⟩
      obtain ⟨id, em, hem⟩ := hcreate
      rw [hunf, hem]
      refine ⟨⟨fun _ => Or.inr (by omega), fun _ => ⟨_, _, rfl⟩⟩, ?_⟩
      intro e c1 h
      simp only [Prod.mk.injEq, Except.ok.injEq] at h
      obtain ⟨rfl, rfl⟩ := h
      exact ⟨hsecond _ _, Dict.filter_key_of_find _ _ _ (Dict.keysDistinct_assign _ _ _ hd)
        (Dict.find_assign_self _ _ _)⟩

theorem createEntityNamed_twice_witness :
    Dict.keysDistinct (world0 Unit).entities
      ∧ (((∃ e c1, (world0 Unit).createEntityNamed 4 "X" = (.ok e, c1)) ↔
          (Dict.contains (world0 Unit).entities "X" = true ∨
            (world0 Unit).entity_manager.live.card < 4))
        ∧ ∀ e c1, (world0 Unit).createEntityNamed 4 "X" = (.ok e, c1) →
            c1.createEntityNamed 4 "X" = (.ok e, c1)
              ∧ c1.entities.filter (fun p => p.1 == "X") = [("X", e)]) :=
  ⟨by decide, createEntityNamed_twice 4 (world0 Unit) "X" (by decide)⟩

/-- C4: where the code leaves the claim.  Entities 0 and 1 were filed under the same
generated key, so 0 is live without a name; entity 2 is named by the empty string.
Destroying 0 succeeds and erases the entry of entity 2, which stays live. -/
theorem destroyEntity_erases_empty_name :
    ("", 2) ∈ (run 8 8 (world0 Unit) [.createEntity "AAAAAAAAAAAA", .createEntity "AAAAAAAAAAAA",
        .createEntityNamed ""]).entities
      ∧ 0 ∈ (run 8 8 (world0 Unit) [.createEntity "AAAAAAAAAAAA", .createEntity "AAAAAAAAAAAA",
        .createEntityNamed ""]).entity_manager.live
      ∧ ((run 8 8 (world0 Unit) [.createEntity "AAAAAAAAAAAA", .createEntity "AAAAAAAAAAAA",
        .createEntityNamed ""]).destroyEntity 0).1 = .ok ()
      ∧ ((run 8 8 (world0 Unit) [.createEntity "AAAAAAAAAAAA", .createEntity "AAAAAAAAAAAA",
        .createEntityNamed ""]).destroyEntity 0).2.entities = [("AAAAAAAAAAAA", 1)]
      ∧ 2 ∈ ((run 8 8 (world0 Unit) [.createEntity "AAAAAAAAAAAA", .createEntity "AAAAAAAAAAAA",
        .createEntityNamed ""]).destroyEntity 0).2.entity_manager.live := by
  decide

/-- The concrete check of the round trip: entity `"P"` with position `(10, 20)`, backup,
position changed to `(99, 99)`, restore: the position reads `(10, 20)` again. -/
theorem position_reads_back :
    (run 8 8 (positionWorld.backup (recordComponent "Position"))
        [.writeComponent "Position" 0 (99, 99)]).getComponent "Position" 0 = .ok (99, 99)
      ∧ ((run 8 8 (positionWorld.backup (recordComponent "Position"))
        [.writeComponent "Position" 0 (99, 99)]).restore 8
          (writeBackComponent "Position")).2.getComponent "Position" 0 = .ok (10, 20) := by
  decide

/-- Removing a component the entity does not hold reports not-found and changes nothing. -/
theorem removeComponent_absent (c : Coordinator V) (T : TypeName) (t : ComponentType)
    (e : Entity) (hT : c.getComponentType T = .ok t)
    (hno : (c.component_manager.componentArrays t).has e = false) :
    c.removeComponent T e = (.error .notFound, c) := by
  unfold Coordinator.getComponentType at hT
  unfold Coordinator.removeComponent ComponentManager.removeComponent
  simp [hT, hno]

/-- C6 (amended): after `addComponent<T>(e, v)` and `removeComponent<T>(e)` on a registered
type, the removal succeeds, `hasComponent<T>(e)` is false and the signature bit of `T` is
cleared; a second `removeComponent<T>(e)` reports not-found and leaves the whole world
unchanged. -/
theorem add_then_remove_twice (c : Coordinator V) (T : TypeName) (t : ComponentType)
    (e : Entity) (v : V) (hT : c.getComponentType T = .ok t)
    (hn : (c.component_manager.componentArrays t).owners.Nodup) :
    ((c.addComponent T e v).2.removeComponent T e).1 = .ok ()
      ∧ ((c.addComponent T e v).2.removeComponent T e).2.hasComponent T e = false
      ∧ Signature.test
          (((c.addComponent T e v).2.removeComponent T e).2.entity_manager.getSignature e) t
          = false
      ∧ ((c.addComponent T e v).2.removeComponent T e).2.removeComponent T e
          = (.error .notFound, ((c.addComponent T e v).2.removeComponent T e).2) := by
  have hT0 : c.component_manager.getComponentType T = .ok t := hT
  -- the world after the add holds a component of type `T` for `e`
  have hadd : ∃ c1, (c.addComponent T e v).2 = c1 ∧
      c1.component_manager.getComponentType T = .ok t ∧
      (c1.component_manager.componentArrays t).has e = true ∧
      (c1.component_manager.componentArrays t).owners.Nodup := by
    rcases addComponent_cases c T e v with ⟨hh, hsame⟩ | ⟨err, herr, _⟩ |
      ⟨t2, c2, ht2, hhas, hres, htypes, harr, _, _, _, _⟩
    · rw [ComponentManager.hasComponent_eq _ _ _ hT0] at hh
      exact ⟨c, by rw [hsame], hT0, hh, hn⟩
    · rw [hT0] at herr; cases herr
    · rw [hT0] at ht2
      simp only [Except.ok.injEq] at ht2
      subst ht2
      refine ⟨c2, by rw [hres], ?_, ?_, ?_⟩
      · unfold ComponentManager.getComponentType at hT0 ⊢
        rw [htypes]; exact hT0
      · rw [harr, if_pos rfl, ComponentArray.has_add]; simp
      · rw [harr, if_pos rfl, ComponentArray.owners_add, List.nodup_append]
        refine ⟨hn, List.nodup_singleton _, ?_⟩
        intro a ha hb
        simp only [List.mem_singleton] at hb
        rw [ComponentArray.has_eq_false_iff] at hhas
        exact hhas (hb ▸ ha)
  obtain ⟨c1, hc1, hT1, hhas1, hn1⟩ := hadd
  rw [hc1]
  rcases removeComponent_cases c1 T e with ⟨hno, _, _⟩ |
    ⟨t2, c2, ht2, _, hres, htypes, harr, hem, _, _, _⟩
  · rw [ComponentManager.hasComponent_eq _ _ _ hT1, hhas1] at hno
    cases hno
  · rw [hT1] at ht2
    simp only [Except.ok.injEq] at ht2
    subst ht2
    rw [hres]
    have hT2 : c2.getComponentType T = .ok t := by
      unfold Coordinator.getComponentType ComponentManager.getComponentType at *
      rw [htypes]; exact hT1
    have hno2 : (c2.component_manager.componentArrays t).has e = false := by
      rw [harr, if_pos rfl, ComponentArray.has_remove _ _ _ hn1]; simp
    refine ⟨rfl, ?_, ?_, removeComponent_absent c2 T t e hT2 hno2⟩
    · show c2.component_manager.hasComponent T e = false
      rw [ComponentManager.hasComponent_eq _ _ _ hT2]; exact hno2
    · show Signature.test (c2.entity_manager.getSignature e) t = false
      rw [hem]
      unfold EntityManager.getSignature EntityManager.setSignature
      simp [Signature.test_set_false]

theorem add_then_remove_twice_witness :
    ((run 8 8 (world0 (Int × Int)) [.registerComponent "Position",
          .createEntityNamed "P"]).getComponentType "Position" = .ok 0
      ∧ (((run 8 8 (world0 (Int × Int)) [.registerComponent "Position",
          .createEntityNamed "P"]).component_manager.componentArrays 0).owners.Nodup))
    ∧ ((((run 8 8 (world0 (Int × Int)) [.registerComponent "Position",
          .createEntityNamed "P"]).addComponent "Position" 0 (10, 20)).2.removeComponent
            "Position" 0).1 = .ok ()
      ∧ (((run 8 8 (world0 (Int × Int)) [.registerComponent "Position",
          .createEntityNamed "P"]).addComponent "Position" 0 (10, 20)).2.removeComponent
            "Position" 0).2.hasComponent "Position" 0 = false
      ∧ Signature.test
          ((((run 8 8 (world0 (Int × Int)) [.registerComponent "Position",
            .createEntityNamed "P"]).addComponent "Position" 0 (10, 20)).2.removeComponent
              "Position" 0).2.entity_manager.getSignature 0) 0 = false
      ∧ (((run 8 8 (world0 (Int × Int)) [.registerComponent "Position",
          .createEntityNamed "P"]).addComponent "Position" 0 (10, 20)).2.removeComponent
            "Position" 0).2.removeComponent "Position" 0
          = (.error .notFound,
              (((run 8 8 (world0 (Int × Int)) [.registerComponent "Position",
                .createEntityNamed "P"]).addComponent "Position" 0 (10, 20)).2.removeComponent
                  "Position" 0).2)) :=
  ⟨⟨by decide, by decide⟩,
    add_then_remove_twice _ "Position" 0 0 (10, 20) (by decide) (by decide)⟩

/-- C6 as stated fails: the second `removeComponent` does not succeed, the component store
reports that there is nothing to remove. -/
theorem second_remove_reports_not_found :
    ((run 8 8 (world0 (Int × Int)) [.registerComponent "Position", .createEntityNamed "P",
        .addComponent "Position" 0 (10, 20),
        .removeComponent "Position" 0]).removeComponent "Position" 0).1
      = .error .notFound := by
  decide

/-- The sample session ends with `"P"` restored under a recycled identity. -/
theorem restoreSession_result :
    (run 8 8 (world0 (Int × Int)) restoreSession).entities = [("P", 0)]
      ∧ 0 ∈ (run 8 8 (world0 (Int × Int)) restoreSession).entity_manager.live := by
  decide

/-- What `destroyEntity` does to the directory when the entity is live and named, in a
directory that names every entity once: exactly the entry of that entity goes. -/
theorem destroyEntity_erases_own_entry (c : Coordinator V) (key : String) (e : Entity)
    (hd : Dict.keysDistinct c.entities) (hn : (c.entities.map Prod.snd).Nodup)
    (hk : (key, e) ∈ c.entities)
    (hl : e ∈ c.entity_manager.live) :
    (c.destroyEntity e).1 = .ok ()
      ∧ (c.destroyEntity e).2.entities = Dict.erase c.entities key
      ∧ (∀ p ∈ (c.destroyEntity e).2.entities, p.2 ≠ e)
      ∧ (∀ p ∈ c.entities, p.2 ≠ e → p ∈ (c.destroyEntity e).2.entities) := by
  have hkey := getEntityKey_of_mem c hn key e hk
  have hres : c.destroyEntity e = (.ok (),
      { c with entity_manager := (c.entity_manager.destroyEntity e).2,
               component_manager := c.component_manager.entityDestroyed e,
               system_manager := c.system_manager.entityDestroyed e,
               entities := Dict.erase c.entities key }) := by
    unfold Coordinator.destroyEntity EntityManager.destroyEntity
    simp [hl, hkey]
  rw [hres]
  refine ⟨rfl, rfl, ?_, ?_⟩
  · intro p hp heq
    have hp2 := (Dict.mem_erase _ _ p).mp hp
    apply hp2.2
    have hmem : (p.1, e) ∈ c.entities := by rw [← heq]; exact hp2.1
    exact Dict.key_unique_of_values_nodup _ hn _ _ e hmem hk
  · intro p hp hne
    apply (Dict.mem_erase _ _ p).mpr
    refine ⟨hp, fun hpk => hne ?_⟩
    have := List.inj_on_of_nodup_map hd hp hk hpk
    rw [this]

/-- The names of the sample session read back through `getEntityKey`. -/
theorem getEntityKey_samples :
    (run 8 8 (world0 (Int × Int)) restoreSession).getEntityKey 0 = "P"
      ∧ (run 8 8 (world0 (Int × Int)) restoreSession).getEntityKey 5 = ""
      ∧ ((run 8 8 (world0 (Int × Int)) restoreSession).createEntityNamed 8 "Q").2.getEntityKey 1
          = "Q" := by
  decide

/-- C16: where the code leaves the claim.  The directory names entity 0 `CHARACTER001`;
an unnamed creation whose generated key is that same string returns entity 1, rebinds the
existing name to it and adds no entry, so entity 0 stays live without a name. -/
theorem createEntity_rebinds_existing_name :
    (run 8 8 (world0 Unit) [.createEntityNamed "CHARACTER001"]).entities
        = [("CHARACTER001", 0)]
      ∧ ((run 8 8 (world0 Unit) [.createEntityNamed "CHARACTER001"]).createEntity 8
          "CHARACTER001").1 = .ok 1
      ∧ ((run 8 8 (world0 Unit) [.createEntityNamed "CHARACTER001"]).createEntity 8
          "CHARACTER001").2.entities = [("CHARACTER001", 1)]
      ∧ 0 ∈ ((run 8 8 (world0 Unit) [.createEntityNamed "CHARACTER001"]).createEntity 8
          "CHARACTER001").2.entity_manager.live
      ∧ ((run 8 8 (world0 Unit) [.createEntityNamed "CHARACTER001"]).createEntity 8
          "CHARACTER001").2.getEntityKey 0 = "" := by
  decide

/-- What unnamed creation does when the generated key is not in the directory: every
entry stays, one entry is added, and it names the new entity. -/
theorem createEntity_fresh_key (MAX_ENTITIES : Nat) (c c1 : Coordinator V) (generated : String)
    (e : Entity) (hfresh : Dict.find c.entities generated = none)
    (h : c.createEntity MAX_ENTITIES generated = (.ok e, c1)) :
    c1.entities = c.entities ++ [(generated, e)]
      ∧ (∀ n x, Dict.find c.entities n = some x → Dict.find c1.entities n = some x)
      ∧ c1.entities.length = c.entities.length + 1
      ∧ Dict.find c1.entities generated = some e := by
  have happ : ∀ (m : List (String × Entity)), Dict.find m generated = none →
      Dict.assign m generated e = m ++ [(generated, e)] := by
    intro m
    induction m with
    | nil => intro _; rfl
    | cons p m ih =>
      intro hm
      by_cases hp : p.1 = generated
      · simp [Dict.find, hp] at hm
      · simp only [Dict.find, hp, beq_iff_eq, if_false] at hm
        simp only [Dict.assign, hp, beq_iff_eq, if_false, List.cons_append, ih hm]
  unfold Coordinator.createEntity at h
  cases hc : c.entity_manager.createEntity MAX_ENTITIES with
  | mk r em =>
    rw [hc] at h
    cases r with
    | error err => cases h
    | ok id =>
      simp only [Prod.mk.injEq, Except.ok.injEq] at h
      obtain ⟨rfl, rfl⟩ := h
      have hent : Dict.assign c.entities (createKey id generated) id
          = c.entities ++ [(generated, id)] := happ _ hfresh
      refine ⟨hent, ?_, ?_, ?_⟩
      · intro n x hx
        have hne : n ≠ generated := by
          intro heq; rw [heq, hfresh] at hx; cases hx
        show Dict.find (Dict.assign c.entities generated id) n = some x
        rw [Dict.find_assign_ne _ _ _ _ hne]; exact hx
      · show (Dict.assign c.entities (createKey id generated) id).length = _
        rw [hent]; simp
      · exact Dict.find_assign_self _ _ _

/-- At capacity the allocator refuses and keeps its state. -/
theorem EntityManager.createEntity_full (MAX_ENTITIES : Nat) (em : EntityManager)
    (h : MAX_ENTITIES ≤ em.live.card) :
    em.createEntity MAX_ENTITIES = (.error .capacityExceeded, em) := by
  unfold EntityManager.createEntity; simp [h]

/-- Creating entities under distinct new names, while the allocator has room, succeeds
every time: one more live identity and one more entry per call. -/
theorem run_createEntityNamed_distinct (MAX_ENTITIES MAX_COMPONENTS : Nat)
    (names : List String) :
    ∀ (c : Coordinator V), DirectoryInv c → names.Nodup →
      (∀ n ∈ names, Dict.find c.entities n = none) →
      c.entity_manager.live.card + names.length ≤ MAX_ENTITIES →
      DirectoryInv (run MAX_ENTITIES MAX_COMPONENTS c (names.map Op.createEntityNamed))
        ∧ (run MAX_ENTITIES MAX_COMPONENTS c
            (names.map Op.createEntityNamed)).entity_manager.live.card
          = c.entity_manager.live.card + names.length
        ∧ (run MAX_ENTITIES MAX_COMPONENTS c (names.map Op.createEntityNamed)).entities.map
            Prod.fst = c.entities.map Prod.fst ++ names := by
  induction names with
  | nil => intro c h _ _ _; exact ⟨h, rfl, by simp [run]⟩
  | cons n names ih =>
    intro c h hnd hnew hroom
    rw [List.nodup_cons] at hnd
    have hfn : Dict.find c.entities n = none := hnew n (List.mem_cons_self _ _)
    simp only [List.length_cons] at hroom
    rcases EntityManager.createEntity_cases MAX_ENTITIES c.entity_manager h.alloc with
      ⟨hfull, _⟩ | ⟨_, id, em2, hs, hid, hlive, _, _⟩
    · omega
    · have hstep : step MAX_ENTITIES MAX_COMPONENTS c (Op.createEntityNamed n)
          = { c with entity_manager := em2, entities := Dict.assign c.entities n id } := by
        show (c.createEntityNamed MAX_ENTITIES n).2 = _
        unfold Coordinator.createEntityNamed
        rw [hfn]; simp only; rw [hs]
      have hinv : DirectoryInv (step MAX_ENTITIES MAX_COMPONENTS c (Op.createEntityNamed n)) :=
        h.dir_after_step _ _ _ trivial
      have hkeys : (step MAX_ENTITIES MAX_COMPONENTS c (Op.createEntityNamed n)).entities.map
          Prod.fst = c.entities.map Prod.fst ++ [n] := by
        rw [hstep]
        show (Dict.assign c.entities n id).map Prod.fst = _
        rw [Dict.keys_assign, hfn]; rfl
      have hcard : (step MAX_ENTITIES MAX_COMPONENTS c
          (Op.createEntityNamed n)).entity_manager.live.card
            = c.entity_manager.live.card + 1 := by
        rw [hstep]
        show em2.live.card = _
        rw [hlive, Finset.card_insert_of_not_mem hid]
      have hnew2 : ∀ n2 ∈ names, Dict.find (step MAX_ENTITIES MAX_COMPONENTS c
          (Op.createEntityNamed n)).entities n2 = none := by
        intro n2 hn2
        rw [hstep]
        show Dict.find (Dict.assign c.entities n id) n2 = none
        have hne : n2 ≠ n := fun heq => hnd.1 (heq ▸ hn2)
        rw [Dict.find_assign_ne _ _ _ _ hne]
        exact hnew n2 (List.mem_cons_of_mem _ hn2)
      obtain ⟨h1, h2, h3⟩ := ih _ hinv hnd.2 hnew2 (by rw [hcard]; omega)
      refine ⟨h1, ?_, ?_⟩
      · show (run MAX_ENTITIES MAX_COMPONENTS (step MAX_ENTITIES MAX_COMPONENTS c
            (Op.createEntityNamed n)) _).entity_manager.live.card = _
        rw [h2, hcard, List.length_cons]; omega
      · show (run MAX_ENTITIES MAX_COMPONENTS (step MAX_ENTITIES MAX_COMPONENTS c
            (Op.createEntityNamed n)) _).entities.map Prod.fst = _
        rw [h3, hkeys]; simp

/-- Unnamed creations, while the allocator has room, succeed every time: one more live
identity per call, whatever keys are generated. -/
theorem run_createEntity_count (MAX_ENTITIES MAX_COMPONENTS : Nat) (keys : List String) :
    ∀ (c : Coordinator V), DirectoryInv c →
      c.entity_manager.live.card + keys.length ≤ MAX_ENTITIES →
      DirectoryInv (run MAX_ENTITIES MAX_COMPONENTS c (keys.map Op.createEntity))
        ∧ (run MAX_ENTITIES MAX_COMPONENTS c
            (keys.map Op.createEntity)).entity_manager.live.card
          = c.entity_manager.live.card + keys.length := by
  induction keys with
  | nil => intro c h _; exact ⟨h, rfl⟩
  | cons k keys ih =>
    intro c h hroom
    simp only [List.length_cons] at hroom
    rcases EntityManager.createEntity_cases MAX_ENTITIES c.entity_manager h.alloc with
      ⟨hfull, _⟩ | ⟨_, id, em2, hs, hid, hlive, _, _⟩
    · omega
    · have hinv : DirectoryInv (step MAX_ENTITIES MAX_COMPONENTS c (Op.createEntity k)) :=
        h.dir_after_step _ _ _ trivial
      have hcard : (step MAX_ENTITIES MAX_COMPONENTS c
          (Op.createEntity k)).entity_manager.live.card = c.entity_manager.live.card + 1 := by
        show (c.createEntity MAX_ENTITIES k).2.entity_manager.live.card = _
        unfold Coordinator.createEntity
        rw [hs]
        show em2.live.card = _
        rw [hlive, Finset.card_insert_of_not_mem hid]
      obtain ⟨h1, h2⟩ := ih _ hinv (by rw [hcard]; omega)
      refine ⟨h1, ?_⟩
      show (run MAX_ENTITIES MAX_COMPONENTS (step MAX_ENTITIES MAX_COMPONENTS c
          (Op.createEntity k)) _).entity_manager.live.card = _
      rw [h2, hcard, List.length_cons]; omega

/-- C13: capacity boundary.  From the initialised empty world, `MAX_ENTITIES` creations
under pairwise distinct names (or `MAX_ENTITIES` unnamed creations) all succeed and issue
`MAX_ENTITIES` distinct identities; one more creation reports capacity exceeded and leaves
the whole world, directory and identities included, as it was. -/
theorem capacity_boundary (MAX_ENTITIES MAX_COMPONENTS : Nat) :
    (∀ (names : List String) (last : String), (names ++ [last]).Nodup →
        names.length = MAX_ENTITIES →
        (run MAX_ENTITIES MAX_COMPONENTS (world0 V)
            (names.map Op.createEntityNamed)).entities.map Prod.fst = names
          ∧ ((run MAX_ENTITIES MAX_COMPONENTS (world0 V)
            (names.map Op.createEntityNamed)).entities.map Prod.snd).Nodup
          ∧ (run MAX_ENTITIES MAX_COMPONENTS (world0 V)
            (names.map Op.createEntityNamed)).entity_manager.live.card = MAX_ENTITIES
          ∧ (run MAX_ENTITIES MAX_COMPONENTS (world0 V)
              (names.map Op.createEntityNamed)).createEntityNamed MAX_ENTITIES last
            = (.error .capacityExceeded,
                run MAX_ENTITIES MAX_COMPONENTS (world0 V) (names.map Op.createEntityNamed)))
      ∧ (∀ (keys : List String) (last : String), keys.length = MAX_ENTITIES →
        (run MAX_ENTITIES MAX_COMPONENTS (world0 V)
            (keys.map Op.createEntity)).entity_manager.live.card = MAX_ENTITIES
          ∧ (run MAX_ENTITIES MAX_COMPONENTS (world0 V)
              (keys.map Op.createEntity)).createEntity MAX_ENTITIES last
            = (.error .capacityExceeded,
                run MAX_ENTITIES MAX_COMPONENTS (world0 V) (keys.map Op.createEntity))) := by
  constructor
  · intro names last hnd hlen
    rw [List.nodup_append] at hnd
    obtain ⟨hnd1, _, hdisj⟩ := hnd
    have hlast : last ∉ names := fun hm => hdisj hm (List.mem_singleton_self last)
    obtain ⟨h1, h2, h3⟩ := run_createEntityNamed_distinct MAX_ENTITIES MAX_COMPONENTS names
      (world0 V) DirectoryInv.dir_at_init hnd1 (fun _ _ => rfl)
      (by show (∅ : Finset Entity).card + names.length ≤ MAX_ENTITIES
          rw [hlen]; simp)
    have hcard : (run MAX_ENTITIES MAX_COMPONENTS (world0 V)
        (names.map Op.createEntityNamed)).entity_manager.live.card = MAX_ENTITIES := by
      rw [h2, hlen]; show (∅ : Finset Entity).card + MAX_ENTITIES = MAX_ENTITIES; simp
    have hkeys : (run MAX_ENTITIES MAX_COMPONENTS (world0 V)
        (names.map Op.createEntityNamed)).entities.map Prod.fst = names := by
      rw [h3]; rfl
    refine ⟨hkeys, h1.injective, hcard, ?_⟩
    have hfind : Dict.find (run MAX_ENTITIES MAX_COMPONENTS (world0 V)
        (names.map Op.createEntityNamed)).entities last = none := by
      rw [Dict.find_eq_none_iff, hkeys]; exact hlast
    unfold Coordinator.createEntityNamed
    rw [hfind]
    simp only
    rw [EntityManager.createEntity_full _ _ (le_of_eq hcard.symm)]
  · intro keys last hlen
    obtain ⟨_, h2⟩ := run_createEntity_count MAX_ENTITIES MAX_COMPONENTS keys
      (world0 V) DirectoryInv.dir_at_init
      (by show (∅ : Finset Entity).card + keys.length ≤ MAX_ENTITIES
          rw [hlen]; simp)
    have hcard : (run MAX_ENTITIES MAX_COMPONENTS (world0 V)
        (keys.map Op.createEntity)).entity_manager.live.card = MAX_ENTITIES := by
      rw [h2, hlen]; show (∅ : Finset Entity).card + MAX_ENTITIES = MAX_ENTITIES; simp
    refine ⟨hcard, ?_⟩
    unfold Coordinator.createEntity
    rw [EntityManager.createEntity_full _ _ (le_of_eq hcard.symm)]

theorem capacity_boundary_witness :
    ((["A", "B"] ++ ["C"]).Nodup ∧ ["A", "B"].length = 2)
      ∧ ((run 2 8 (world0 Unit) (["A", "B"].map Op.createEntityNamed)).entities.map Prod.fst
            = ["A", "B"]
        ∧ ((run 2 8 (world0 Unit) (["A", "B"].map Op.createEntityNamed)).entities.map
            Prod.snd).Nodup
        ∧ (run 2 8 (world0 Unit) (["A", "B"].map Op.createEntityNamed)).entity_manager.live.card
            = 2
        ∧ (run 2 8 (world0 Unit) (["A", "B"].map Op.createEntityNamed)).createEntityNamed 2 "C"
            = (.error .capacityExceeded,
                run 2 8 (world0 Unit) (["A", "B"].map Op.createEntityNamed)))
      ∧ ["k1", "k2"].length = 2
      ∧ ((run 2 8 (world0 Unit) (["k1", "k2"].map Op.createEntity)).entity_manager.live.card = 2
        ∧ (run 2 8 (world0 Unit) (["k1", "k2"].map Op.createEntity)).createEntity 2 "k3"
            = (.error .capacityExceeded,
                run 2 8 (world0 Unit) (["k1", "k2"].map Op.createEntity))) :=
  ⟨⟨by decide, by decide⟩,
    (@capacity_boundary Unit 2 8).1 ["A", "B"] "C" (by decide) (by decide),
    by decide,
    (@capacity_boundary Unit 2 8).2 ["k1", "k2"] "k3" (by decide)⟩

/-- The sample world of the additive restore, evaluated: `"P"` and `"Q"` keep their
entities, `"R"` comes back as a new entity, the position of `"P"`, changed since the
backup, is what its record holds again, the position of `"Q"`, which no record names, is
untouched, and the store is as before. -/
theorem restore_additive_samples :
    additiveWorld.entities = [("P", 0), ("Q", 1)]
      ∧ additiveWorld.snapshot.map (fun r => Dict.find r "eId")
        = [some (JsonValue.string "P"), some (JsonValue.string "R")]
      ∧ additiveWorld.getComponent "Position" 0 = .ok (99, 99)
      ∧ (additiveWorld.restore 8 (writeBackComponent "Position")).1 = .ok ()
      ∧ (additiveWorld.restore 8 (writeBackComponent "Position")).2.entities
        = [("P", 0), ("Q", 1), ("R", 2)]
      ∧ (additiveWorld.restore 8 (writeBackComponent "Position")).2.snapshot
        = additiveWorld.snapshot
      ∧ (additiveWorld.restore 8 (writeBackComponent "Position")).2.getComponent "Position" 0
        = .ok (10, 20)
      ∧ (additiveWorld.restore 8 (writeBackComponent "Position")).2.getComponent "Position" 1
        = .ok (7, 7) :=
  ⟨by decide, by decide, by decide, by decide, by decide, by decide, by decide, by decide⟩

/-- C15, where the code leaves the claim: in the world `main.cpp` sets up (here with room
for 5000 entities and 32 component types) the registered types are the eight of lines 41
to 48, `Jump` not among them; the keyboard movement system requires bits 0, 2 and 5
(`Transform`, `CKinematic`, `KeyboardMovement`) and its set holds `mainChar`; for that
entity the reads of `Transform`, `CKinematic` and `KeyboardMovement` succeed and the read
of `Jump` fails, because the type is not registered, so the update fails. -/
theorem keyboard_update_reads_unregistered_jump :
    (mainSetup 5000 32).map (fun w => (w.1.component_manager.componentTypes, w.2.2.1))
        = .ok (["Transform", "Color", "CKinematic", "Camera", "Gravity", "KeyboardMovement",
            "Client", "MovingPlatform"], 1)
      ∧ (mainSetup 5000 32).map (fun w => systemSignature w.1 "KeyboardMovementSystem")
        = .ok (some (2 ^ 0 + 2 ^ 2 + 2 ^ 5))
      ∧ (mainSetup 5000 32).map (fun w => systemEntities w.1 "KeyboardMovementSystem")
        = .ok {1}
      ∧ (mainSetup 5000 32).map (fun w => w.1.getComponent "Transform" 1) = .ok (.ok ())
      ∧ (mainSetup 5000 32).map (fun w => w.1.getComponent "CKinematic" 1) = .ok (.ok ())
      ∧ (mainSetup 5000 32).map (fun w => w.1.getComponent "KeyboardMovement" 1) = .ok (.ok ())
      ∧ (mainSetup 5000 32).map (fun w => w.1.getComponentType "Jump")
        = .ok (.error .notRegistered)
      ∧ (mainSetup 5000 32).map (fun w => w.1.getComponent "Jump" 1)
        = .ok (.error .notRegistered)
      ∧ (mainSetup 5000 32).map (fun w => KeyboardMovementSystem.updateEntity w.1 1)
        = .ok (.error .notRegistered) :=
  ⟨by decide, by decide, by decide, by decide, by decide, by decide, by decide, by decide,
    by decide⟩

/-- The failing read does not depend on the capacities chosen: with room for just the three
entities and the eight component types of `main.cpp` the update fails in the same way. -/
theorem keyboard_update_at_least_capacity :
    (mainSetup 3 8).map (fun w => systemEntities w.1 "KeyboardMovementSystem") = .ok {1}
      ∧ (mainSetup 3 8).map (fun w => KeyboardMovementSystem.updateEntity w.1 1)
        = .ok (.error .notRegistered) :=
  ⟨by decide, by decide⟩

/-- C14, where the code leaves the claim: `currentSystemTime` casts the clock reading to
milliseconds, so the timeline `main.cpp` constructs with `tic = 1000` counts whole seconds.
For all instants `now0` and `now1` (microseconds), `getTime()` at `now1` after `start()` at
`now0` is the difference of the two millisecond readings divided by 1000; started at
instant 0 and read 1500 milliseconds later it returns 1, not 1500. -/
theorem anchorTimeline_counts_seconds :
    Timeline.construct 0 none 1000 = some anchorTimeline
      ∧ (∀ now0 now1 : Int,
          (Timeline.start now0 anchorTimeline).bind
              (fun t => (t.getTime now1).map Prod.fst)
            = some (Int.tdiv (Int.tdiv now1 1000 - Int.tdiv now0 1000) 1000))
      ∧ (Timeline.start 0 anchorTimeline).bind (fun t => (t.getTime 1500000).map Prod.fst)
          = some 1 := by
  refine ⟨by decide, ?_, by decide⟩
  intro now0 now1
  simp [Timeline.start, Timeline.lock, Timeline.unlock, Timeline.anchorTimeOr, Timeline.getTime,
    Timeline.state, Timeline.withState, anchorTimeline, currentSystemTime]

/-- C17, where the code leaves the claim.  On the running timeline `anchoredTimeline`, which
reads 50 at anchor time 150, `pause()` does not return.  From the state `pause()` is written
to leave at that moment, `unpause()` at anchor time 160 adds `160 - 50` to the paused time,
the anchor time less a reading of the timeline itself, and `getTime()` right after returns
`-50`, not 50. -/
theorem unpause_loses_continuity :
    (anchoredTimeline.getTime 150000).map Prod.fst = some 50
      ∧ anchoredTimeline.pause 150000 = none
      ∧ (pausedTimeline.getTime 160000).map Prod.fst = some 50
      ∧ (pausedTimeline.unpause 160000).map (fun t => t.state.elapsed_paused_time) = some 110
      ∧ (pausedTimeline.unpause 160000).bind (fun t => (t.getTime 160000).map Prod.fst)
          = some (-50) := by
  decide

/-- C18, where the code leaves the claim: `changeTic` never returns, whatever the timeline,
and `pause` returns only on a timeline that is already paused (and whose mutex is free);
both call `getTime`, which locks `m`, while they hold `m`. -/
theorem changeTic_and_pause_relock (now : Int) (t : Timeline) (new_tic : Int) :
    t.changeTic now new_tic = none
      ∧ (t.pause now).isNone = (t.state.m || !t.state.paused)
      ∧ anchorTimeline.uncontended = true
      ∧ anchorTimeline.changeTic 0 2 = none
      ∧ anchorTimeline.pause 0 = none := by
  refine ⟨?_, ?_, by decide, by decide, by decide⟩
  · cases t with
    | root s =>
      cases hm : s.m <;>
        simp [Timeline.changeTic, Timeline.lock, Timeline.getTime, Timeline.state,
          Timeline.withState, hm]
    | anchored s anchor =>
      cases hm : s.m <;>
        simp [Timeline.changeTic, Timeline.lock, Timeline.getTime, Timeline.state,
          Timeline.withState, hm]
  · cases t with
    | root s =>
      cases hm : s.m <;> cases hp : s.paused <;>
        simp [Timeline.pause, Timeline.lock, Timeline.unlock, Timeline.getTime, Timeline.state,
          Timeline.withState, hm, hp]
    | anchored s anchor =>
      cases hm : s.m <;> cases hp : s.paused <;>
        simp [Timeline.pause, Timeline.lock, Timeline.unlock, Timeline.getTime, Timeline.state,
          Timeline.withState, hm, hp]

/-- `getTime` returns on a timeline none of whose mutexes is held. -/
theorem Timeline.getTime_returns (now : Int) (t : Timeline) (h : t.uncontended = true) :
    (t.getTime now).isSome = true := by
  induction t with
  | root s =>
    simp only [Timeline.uncontended, Bool.not_eq_true'] at h
    cases hp : s.paused <;> simp [Timeline.getTime, h, hp]
  | anchored s anchor ih =>
    simp only [Timeline.uncontended, Bool.and_eq_true, Bool.not_eq_true'] at h
    have h2 := ih h.2
    cases hg : Timeline.getTime now anchor with
    | none => rw [hg] at h2; cases h2
    | some p => cases hp : s.paused <;> simp [Timeline.getTime, h.1, hp, hg]

/-- The four other operations run to completion on a timeline none of whose mutexes is
held. -/
theorem Timeline.other_operations_return (now : Int) (t : Timeline)
    (h : t.uncontended = true) :
    (t.getTime now).isSome = true ∧ (t.start now).isSome = true
      ∧ (t.unpause now).isSome = true ∧ t.isPaused.isSome = true := by
  refine ⟨Timeline.getTime_returns now t h, ?_, ?_, ?_⟩
  · cases t with
    | root s =>
      simp only [Timeline.uncontended, Bool.not_eq_true'] at h
      simp [Timeline.start, Timeline.lock, Timeline.anchorTimeOr, Timeline.state,
        Timeline.withState, h]
    | anchored s anchor =>
      simp only [Timeline.uncontended, Bool.and_eq_true, Bool.not_eq_true'] at h
      have h2 := Timeline.getTime_returns now anchor h.2
      cases hg : Timeline.getTime now anchor with
      | none => rw [hg] at h2; cases h2
      | some p =>
        simp [Timeline.start, Timeline.lock, Timeline.anchorTimeOr, Timeline.state,
          Timeline.withState, h.1, hg]
  · cases t with
    | root s =>
      simp only [Timeline.uncontended, Bool.not_eq_true'] at h
      cases hp : s.paused <;>
        simp [Timeline.unpause, Timeline.lock, Timeline.anchorTimeOr, Timeline.state,
          Timeline.withState, h, hp]
    | anchored s anchor =>
      simp only [Timeline.uncontended, Bool.and_eq_true, Bool.not_eq_true'] at h
      have h2 := Timeline.getTime_returns now anchor h.2
      cases hg : Timeline.getTime now anchor with
      | none => rw [hg] at h2; cases h2
      | some p =>
        cases hp : s.paused <;>
          simp [Timeline.unpause, Timeline.lock, Timeline.anchorTimeOr, Timeline.state,
            Timeline.withState, h.1, hp, hg]
  · cases t with
    | root s =>
      simp only [Timeline.uncontended, Bool.not_eq_true'] at h
      simp [Timeline.isPaused, Timeline.lock, Timeline.state, h]
    | anchored s anchor =>
      simp only [Timeline.uncontended, Bool.and_eq_true, Bool.not_eq_true'] at h
      simp [Timeline.isPaused, Timeline.lock, Timeline.state, h.1]

theorem Timeline.other_operations_return_witness :
    anchoredTimeline.uncontended = true
      ∧ ((anchoredTimeline.getTime 150000).isSome = true
        ∧ (anchoredTimeline.start 150000).isSome = true
        ∧ (anchoredTimeline.unpause 150000).isSome = true
        ∧ anchoredTimeline.isPaused.isSome = true) :=
  ⟨by decide, Timeline.other_operations_return 150000 anchoredTimeline (by decide)⟩

end Shade
